import Mathlib

/-!
Verification of the Evernote-Extractor core against its specification.

This file shallowly embeds the parts of the Python sources that the
checked properties are about:

* `src/progress.py` — the resumable progress tracker (`ProgressTracker`),
  its note registry operations, and `generate_note_identifier`;
* `src/models.py` — the `ConvertedPage.page_name` derivation and the
  data model records;
* `src/converter.py` — the `ENMLToXWikiConverter`: attachment hash
  resolution, the `convert` entry point with its plain-text fallback,
  and the list-handling portion of the element walker.

Python dicts are modeled as insertion-ordered association lists,
machine-width arithmetic (SHA-256) as `Nat` with explicit `% 2 ^ 32`,
and fallible operations as `Option` or `Except`.  The lxml document
parser is not part of the repository; it enters as an explicit
`parse` parameter of `convert`, where `none` models the parse-level
`XMLSyntaxError` that the source catches.  The parsed node space comes
in two layers: `Elem` restricts tags to strings (element-only trees,
on which the walk is total), while `LNode` also carries the
callable-tag comment and processing-instruction nodes real lxml trees
contain, over which the walk is `Except`-valued because tag access can
raise.
-/

namespace EvernoteExtractor

set_option maxRecDepth 40000

/-! ## Python dict model (insertion-ordered association list) -/

/-- Lookup of a key in a Python dict, modeled as the first matching
entry of an insertion-ordered association list. -/
def dictGet (k : String) : List (String × α) → Option α
  | [] => none
  | (k2, v) :: rest => if k2 = k then some v else dictGet k rest

/-- Mutating update of the value stored under an existing key
(the Python `d[k].field = ...` pattern): the first entry with the key
is replaced, everything else is untouched. -/
def dictUpdate (k : String) (f : α → α) : List (String × α) → List (String × α)
  | [] => []
  | (k2, v) :: rest =>
    if k2 = k then (k2, f v) :: rest else (k2, v) :: dictUpdate k f rest

/-- Python dict assignment `d[k] = v`: overwrite in place if the key is
present, otherwise append at the end (dicts preserve insertion order). -/
def dictPut (k : String) (v : α) (d : List (String × α)) : List (String × α) :=
  if (dictGet k d).isSome then dictUpdate k (fun _ => v) d else d ++ [(k, v)]

/-! ## Progress tracker (`src/progress.py`) -/

/-- `NoteStatus` — status of a note in the import process
(progress.py lines 12-18). -/
inductive NoteStatus where
  | pending
  | uploaded
  | failed
  | skipped
deriving DecidableEq, Repr

/-- `NoteProgress` — progress information for a single note
(progress.py lines 21-31). -/
structure NoteProgress where
  identifier : String
  title : String
  status : NoteStatus := .pending
  error : Option String := none
  page_url : Option String := none
  uploaded_at : Option String := none
  source_file : Option String := none
deriving DecidableEq, Repr

/-- `ImportProgress` — overall progress of an import session
(progress.py lines 34-43).  Timestamps are carried as opaque strings;
`datetime.now().isoformat()` values are passed in explicitly as `now`
arguments of the operations that read the clock. -/
structure ImportProgress where
  started_at : String
  last_updated : String
  wiki_url : String := ""
  space : String := ""
  total_notes : Nat := 0
  notes : List (String × NoteProgress) := []
deriving DecidableEq, Repr

/-- The tracker pairs the in-memory `ImportProgress` with the persisted
state file; `file = none` models an absent state file, `file = some p`
models a file holding the serialized form of `p` (`save` writes the
whole state, progress.py lines 136-161). -/
structure TrackerState where
  progress : ImportProgress
  file : Option ImportProgress := none
deriving DecidableEq, Repr

/-- `ProgressTracker.save` (progress.py lines 136-161): stamp
`last_updated` with the current time and write the full state through
to the state file. -/
def save (now : String) (st : TrackerState) : TrackerState :=
  let p := { st.progress with last_updated := now }
  { progress := p, file := some p }

/-- `ProgressTracker.register_note` (progress.py lines 176-188):
create a pending entry only if the identifier is unseen. -/
def register_note (identifier title : String) (source_file : Option String)
    (st : TrackerState) : TrackerState :=
  if (dictGet identifier st.progress.notes).isSome then st
  else
    { st with progress :=
      { st.progress with notes := st.progress.notes ++
        [(identifier,
          { identifier := identifier, title := title, source_file := source_file })] } }

/-- `ProgressTracker.mark_uploaded` (progress.py lines 190-201): if the
identifier is tracked, set status to uploaded, record the page URL and
the upload time, and persist; otherwise do nothing. -/
def mark_uploaded (now : String) (identifier : String) (page_url : Option String)
    (st : TrackerState) : TrackerState :=
  if (dictGet identifier st.progress.notes).isSome then
    let upd : NoteProgress → NoteProgress := fun n =>
      { n with status := .uploaded, page_url := page_url, uploaded_at := some now }
    save now
      { st with progress :=
        { st.progress with notes := dictUpdate identifier upd st.progress.notes } }
  else st

/-- `ProgressTracker.mark_failed` (progress.py lines 203-209). -/
def mark_failed (now : String) (identifier : String) (error : String)
    (st : TrackerState) : TrackerState :=
  if (dictGet identifier st.progress.notes).isSome then
    let upd : NoteProgress → NoteProgress := fun n =>
      { n with status := .failed, error := some error }
    save now
      { st with progress :=
        { st.progress with notes := dictUpdate identifier upd st.progress.notes } }
  else st

/-- `ProgressTracker.mark_skipped` (progress.py lines 211-217); the
`reason` argument defaults to `"Already exists"` at call sites. -/
def mark_skipped (now : String) (identifier : String) (reason : String)
    (st : TrackerState) : TrackerState :=
  if (dictGet identifier st.progress.notes).isSome then
    let upd : NoteProgress → NoteProgress := fun n =>
      { n with status := .skipped, error := some reason }
    save now
      { st with progress :=
        { st.progress with notes := dictUpdate identifier upd st.progress.notes } }
  else st

/-- `ProgressTracker.is_processed` (progress.py lines 219-226): true
iff the identifier is tracked with status uploaded or skipped. -/
def is_processed (identifier : String) (st : TrackerState) : Bool :=
  match dictGet identifier st.progress.notes with
  | some n => n.status = .uploaded ∨ n.status = .skipped
  | none => false

/-- `ProgressTracker.should_retry` (progress.py lines 228-232): true
iff the identifier is tracked with status failed, or was never seen. -/
def should_retry (identifier : String) (st : TrackerState) : Bool :=
  match dictGet identifier st.progress.notes with
  | some n => n.status = .failed
  | none => true

/-! ### Dictionary lemmas -/

lemma dictGet_append_of_none {α : Type} (k : String) (d l : List (String × α))
    (h : dictGet k d = none) : dictGet k (d ++ l) = dictGet k l := by
  induction d with
  | nil => simp
  | cons p rest ih =>
    obtain ⟨k2, v⟩ := p
    by_cases hk : k2 = k
    · simp [dictGet, hk] at h
    · simp only [dictGet, hk, if_false, List.cons_append] at h ⊢
      exact ih h

lemma dictGet_dictUpdate_self {α : Type} (k : String) (f : α → α)
    (d : List (String × α)) :
    dictGet k (dictUpdate k f d) = (dictGet k d).map f := by
  induction d with
  | nil => simp [dictGet, dictUpdate]
  | cons p rest ih =>
    obtain ⟨k2, v⟩ := p
    by_cases hk : k2 = k
    · simp [dictGet, dictUpdate, hk]
    · simp [dictGet, dictUpdate, hk, ih]

/-- Registering an identifier that is already tracked leaves the whole
tracker state unchanged. -/
lemma register_note_of_present (identifier t : String) (sf : Option String)
    (st : TrackerState) (h : (dictGet identifier st.progress.notes).isSome) :
    register_note identifier t sf st = st := by
  simp [register_note, h]

/-- After `register_note`, the identifier is tracked. -/
lemma dictGet_register_self (identifier t : String) (sf : Option String)
    (st : TrackerState) :
    (dictGet identifier (register_note identifier t sf st).progress.notes).isSome := by
  unfold register_note
  cases h : dictGet identifier st.progress.notes with
  | some n => simp [h]
  | none =>
    simp only [h, Option.isSome_none, Bool.false_eq_true, if_false]
    rw [dictGet_append_of_none _ _ _ h]
    simp [dictGet]

/-- After `mark_uploaded` of a tracked identifier, its entry has status
uploaded (and the identifier stays tracked). -/
lemma dictGet_mark_uploaded_self (now identifier : String) (url : Option String)
    (st : TrackerState) (n : NoteProgress)
    (h : dictGet identifier st.progress.notes = some n) :
    dictGet identifier (mark_uploaded now identifier url st).progress.notes =
      some { n with status := .uploaded, page_url := url, uploaded_at := some now } := by
  simp [mark_uploaded, h, save, dictGet_dictUpdate_self]

/-! ### Theorems about the tracker -/

/-- C4: the progress tracker's `register_note` is idempotent —
registering an already-tracked identifier is a no-op — and terminal
states are never re-entered by registration: after registering an
identifier twice and marking it uploaded once, `is_processed` returns
true and a third registration leaves the state unchanged (in
particular the status is not reset to pending). -/
theorem register_idempotent_terminal_not_reentered
    (st st' : TrackerState) (identifier t sf t2 sf2 t3 sf3 now : String)
    (url : Option String)
    (h : (dictGet identifier st.progress.notes).isSome) :
    register_note identifier t2 (some sf2) st = st ∧
    (let st1 := register_note identifier t (some sf) st'
     let st2 := register_note identifier t (some sf) st1
     let st3 := mark_uploaded now identifier url st2
     st2 = st1 ∧
     register_note identifier t3 (some sf3) st3 = st3 ∧
     is_processed identifier st3 = true ∧
     ∀ n, dictGet identifier st3.progress.notes = some n →
       n.status = .uploaded ∧ n.status ≠ .pending) := by
  refine ⟨register_note_of_present _ _ _ _ h, ?_, ?_, ?_, ?_⟩
  · exact register_note_of_present _ _ _ _ (dictGet_register_self _ _ _ _)
  · have h1 := dictGet_register_self identifier t (some sf) st'
    rw [register_note_of_present _ _ _ _ h1]
    cases h2 : dictGet identifier
        (register_note identifier t (some sf) st').progress.notes with
    | none => rw [h2] at h1; simp at h1
    | some n =>
      apply register_note_of_present
      rw [dictGet_mark_uploaded_self now identifier url _ n h2]
      simp
  · have h1 := dictGet_register_self identifier t (some sf) st'
    rw [register_note_of_present _ _ _ _ h1]
    cases h2 : dictGet identifier
        (register_note identifier t (some sf) st').progress.notes with
    | none => rw [h2] at h1; simp at h1
    | some n =>
      rw [is_processed, dictGet_mark_uploaded_self now identifier url _ n h2]
      simp
  · intro n hn
    have h1 := dictGet_register_self identifier t (some sf) st'
    rw [register_note_of_present _ _ _ _ h1] at hn
    cases h2 : dictGet identifier
        (register_note identifier t (some sf) st').progress.notes with
    | none => rw [h2] at h1; simp at h1
    | some m =>
      rw [dictGet_mark_uploaded_self now identifier url _ m h2] at hn
      cases hn
      exact ⟨rfl, by simp⟩

/-- Witness for C4 at a concrete tracker state. -/
theorem register_idempotent_terminal_not_reentered_witness :
    (let st : TrackerState :=
      { progress := { started_at := "s", last_updated := "s",
                      notes := [("k", { identifier := "k", title := "T" })] } }
     register_note "k" "T2" (some "f2") st = st ∧
     (let st1 := register_note "k" "T" (some "f") st
      let st2 := register_note "k" "T" (some "f") st1
      let st3 := mark_uploaded "2024-01-01T00:00:00" "k" (some "http://w/p") st2
      st2 = st1 ∧
      register_note "k" "T3" (some "f3") st3 = st3 ∧
      is_processed "k" st3 = true ∧
      ∀ n, dictGet "k" st3.progress.notes = some n →
        n.status = .uploaded ∧ n.status ≠ .pending)) :=
  register_idempotent_terminal_not_reentered _ _ "k" "T" "f" "T2" "f2" "T3" "f3"
    "2024-01-01T00:00:00" (some "http://w/p") (by simp [dictGet])

/-- C9: `mark_uploaded`, `mark_failed` and `mark_skipped` on an
identifier that was never registered are silent no-ops: both the
in-memory progress and the persisted state file are left unchanged. -/
theorem mark_unregistered_noop (st : TrackerState) (identifier now : String)
    (url : Option String) (err reason : String)
    (h : dictGet identifier st.progress.notes = none) :
    mark_uploaded now identifier url st = st ∧
    mark_failed now identifier err st = st ∧
    mark_skipped now identifier reason st = st := by
  refine ⟨?_, ?_, ?_⟩ <;> simp [mark_uploaded, mark_failed, mark_skipped, h]

/-- Witness for C9 at a concrete tracker state with one unrelated note. -/
theorem mark_unregistered_noop_witness :
    (let st : TrackerState :=
      { progress := { started_at := "s", last_updated := "s",
                      notes := [("other", { identifier := "other", title := "O" })] } }
     mark_uploaded "now" "ghost" (some "u") st = st ∧
     mark_failed "now" "ghost" "e" st = st ∧
     mark_skipped "now" "ghost" "r" st = st) :=
  mark_unregistered_noop _ "ghost" "now" (some "u") "e" "r" (by simp [dictGet])

/-- C10: `is_processed` and `should_retry` are never both true; an
uploaded or skipped identifier is not retried, a failed or never-seen
identifier is not processed, and a pending identifier makes both
false. -/
theorem is_processed_should_retry_disjoint (st : TrackerState) (identifier : String) :
    (¬(is_processed identifier st = true ∧ should_retry identifier st = true)) ∧
    (∀ n, dictGet identifier st.progress.notes = some n →
      ((n.status = .uploaded ∨ n.status = .skipped) →
        should_retry identifier st = false) ∧
      (n.status = .failed → is_processed identifier st = false) ∧
      (n.status = .pending →
        is_processed identifier st = false ∧ should_retry identifier st = false)) ∧
    (dictGet identifier st.progress.notes = none →
      is_processed identifier st = false) := by
  unfold is_processed should_retry
  cases h : dictGet identifier st.progress.notes with
  | none => simp
  | some n => cases hs : n.status <;> simp [hs]

/-- Witness for C10 at a concrete tracker state with a pending note. -/
theorem is_processed_should_retry_disjoint_witness :
    (let st : TrackerState :=
      { progress := { started_at := "s", last_updated := "s",
                      notes := [("k", { identifier := "k", title := "T" })] } }
     (¬(is_processed "k" st = true ∧ should_retry "k" st = true)) ∧
     (∀ n, dictGet "k" st.progress.notes = some n →
       ((n.status = .uploaded ∨ n.status = .skipped) →
         should_retry "k" st = false) ∧
       (n.status = .failed → is_processed "k" st = false) ∧
       (n.status = .pending →
         is_processed "k" st = false ∧ should_retry "k" st = false)) ∧
     (dictGet "k" st.progress.notes = none → is_processed "k" st = false)) :=
  is_processed_should_retry_disjoint _ "k"

/-! ## Data model (`src/models.py`) -/

/-- `Attachment` — an attachment/resource from an Evernote note
(models.py lines 8-15); `data` is the raw byte string. -/
structure Attachment where
  filename : String
  mime_type : String
  data : List Nat
  hash : String
deriving DecidableEq, Repr

/-- `Note` — an Evernote note (models.py lines 43-54).  The optional
`created`/`updated` timestamps are carried as their ISO-8601 strings. -/
structure Note where
  title : String
  content : String
  created : Option String := none
  updated : Option String := none
  tags : List String := []
  attachments : List Attachment := []
  source_url : Option String := none
  notebook : Option String := none
deriving DecidableEq, Repr

/-- `ConvertedPage` — a note converted to XWiki format
(models.py lines 90-100). -/
structure ConvertedPage where
  title : String
  content : String
  space : String
  tags : List String := []
  attachments : List Attachment := []
  created : Option String := none
  updated : Option String := none
deriving DecidableEq, Repr

/-- Python `str.replace(c, r)` for a one-character pattern and a
one-character replacement: replace every occurrence. -/
def replaceChar (c r : Char) : List Char → List Char
  | [] => []
  | x :: xs => (if x = c then r else x) :: replaceChar c r xs

/-- Python `str.replace(c, "")` for a one-character pattern: delete
every occurrence. -/
def deleteChar (c : Char) : List Char → List Char
  | [] => []
  | x :: xs => if x = c then deleteChar c xs else x :: deleteChar c xs

/-- `ConvertedPage.page_name` (models.py lines 102-115): replace
`/ \ : |` with `-`, remove `? * " < >` and spaces, truncate to 100
characters, and fall back to `"UntitledNote"` when empty. -/
def ConvertedPage.page_name (p : ConvertedPage) : String :=
  let s := p.title.data
  let s := replaceChar '/' '-' s
  let s := replaceChar '\\' '-' s
  let s := replaceChar ':' '-' s
  let s := deleteChar '?' s
  let s := deleteChar '*' s
  let s := deleteChar '"' s
  let s := deleteChar '<' s
  let s := deleteChar '>' s
  let s := replaceChar '|' '-' s
  let s := deleteChar ' ' s
  let s := if s.length > 100 then s.take 100 else s
  if s = [] then "UntitledNote" else String.mk s

/-- The page-name derivation as the specification words it: all of the
path-unsafe characters `/ \ : ? * " < > |` and spaces are *stripped*
(removed), then the result is truncated to 100 characters, with a
placeholder when empty. -/
def page_name_claimed (title : String) : String :=
  let s := title.data.filter (fun c =>
    !(c = '/' ∨ c = '\\' ∨ c = ':' ∨ c = '?' ∨ c = '*' ∨
      c = '"' ∨ c = '<' ∨ c = '>' ∨ c = '|' ∨ c = ' '))
  let s := s.take 100
  if s = [] then "UntitledNote" else String.mk s

/-- Per-character action actually performed by `page_name`: `/ \ : |`
become `-`, `? * " < >` and spaces are dropped, anything else is
kept. -/
def pageNameStep (c : Char) : List Char :=
  if c = '/' ∨ c = '\\' ∨ c = ':' ∨ c = '|' then ['-']
  else if c = '?' ∨ c = '*' ∨ c = '"' ∨ c = '<' ∨ c = '>' ∨ c = ' ' then []
  else [c]

/-- Concatenation of a per-character expansion over a character list. -/
def flatMapChars (f : Char → List Char) : List Char → List Char
  | [] => []
  | c :: cs => f c ++ flatMapChars f cs

/-- The page-name derivation as amended: `/ \ : |` are replaced with a
hyphen (not stripped), `? * " < >` and spaces are removed, the result
is truncated to 100 characters and replaced by `"UntitledNote"` when
empty. -/
def page_name_amended (title : String) : String :=
  let s := (flatMapChars pageNameStep title.data).take 100
  if s = [] then "UntitledNote" else String.mk s

lemma replaceChar_append (c r : Char) (a b : List Char) :
    replaceChar c r (a ++ b) = replaceChar c r a ++ replaceChar c r b := by
  induction a with
  | nil => simp [replaceChar]
  | cons x xs ih => simp [replaceChar, ih]

lemma deleteChar_append (c : Char) (a b : List Char) :
    deleteChar c (a ++ b) = deleteChar c a ++ deleteChar c b := by
  induction a with
  | nil => simp [deleteChar]
  | cons x xs ih =>
    by_cases h : x = c <;> simp [deleteChar, h, ih]

lemma replaceChar_single_ne (c r x : Char) (h : x ≠ c) :
    replaceChar c r [x] = [x] := by
  simp [replaceChar, h]

lemma deleteChar_single_ne (c x : Char) (h : x ≠ c) :
    deleteChar c [x] = [x] := by
  simp [deleteChar, h]

/-- One step of the `page_name` replacement chain on a single
character agrees with `pageNameStep`. -/
lemma page_name_chain_single (c : Char) :
    deleteChar ' ' (replaceChar '|' '-' (deleteChar '>' (deleteChar '<'
      (deleteChar '"' (deleteChar '*' (deleteChar '?' (replaceChar ':' '-'
        (replaceChar '\\' '-' (replaceChar '/' '-' [c]))))))))) =
    pageNameStep c := by
  by_cases h1 : c = '/'
  · subst h1; decide
  by_cases h2 : c = '\\'
  · subst h2; decide
  by_cases h3 : c = ':'
  · subst h3; decide
  by_cases h4 : c = '?'
  · subst h4; decide
  by_cases h5 : c = '*'
  · subst h5; decide
  by_cases h6 : c = '"'
  · subst h6; decide
  by_cases h7 : c = '<'
  · subst h7; decide
  by_cases h8 : c = '>'
  · subst h8; decide
  by_cases h9 : c = '|'
  · subst h9; decide
  by_cases h10 : c = ' '
  · subst h10; decide
  · rw [replaceChar_single_ne _ _ _ h1, replaceChar_single_ne _ _ _ h2,
      replaceChar_single_ne _ _ _ h3, deleteChar_single_ne _ _ h4,
      deleteChar_single_ne _ _ h5, deleteChar_single_ne _ _ h6,
      deleteChar_single_ne _ _ h7, deleteChar_single_ne _ _ h8,
      replaceChar_single_ne _ _ _ h9, deleteChar_single_ne _ _ h10]
    simp [pageNameStep, h1, h2, h3, h4, h5, h6, h7, h8, h9, h10]

lemma page_name_chain_eq_flatMap (l : List Char) :
    deleteChar ' ' (replaceChar '|' '-' (deleteChar '>' (deleteChar '<'
      (deleteChar '"' (deleteChar '*' (deleteChar '?' (replaceChar ':' '-'
        (replaceChar '\\' '-' (replaceChar '/' '-' l))))))))) =
    flatMapChars pageNameStep l := by
  induction l with
  | nil => simp [replaceChar, deleteChar, flatMapChars]
  | cons c l ih =>
    have hsplit : c :: l = [c] ++ l := rfl
    rw [hsplit]
    simp only [replaceChar_append, deleteChar_append]
    rw [page_name_chain_single, ih]
    simp [flatMapChars]

/-- C3 counterexample: for the title `"a/b"` the code produces
`"a-b"` (the slash is replaced with a hyphen, not stripped), while the
claimed derivation — path-unsafe characters stripped — produces
`"ab"`; the two disagree. -/
theorem page_name_strip_counterexample :
    (ConvertedPage.page_name
        { title := "a/b", content := "", space := "S" } = "a-b") ∧
    page_name_claimed "a/b" = "ab" ∧
    ConvertedPage.page_name { title := "a/b", content := "", space := "S" } ≠
      page_name_claimed "a/b" := by
  refine ⟨?_, ?_, ?_⟩ <;> decide

/-- C3 as amended: for every `ConvertedPage`, the derived page name
equals the title with `/ \ : |` replaced by `-`, with `? * " < >` and
spaces removed, truncated to 100 characters, and equal to the fixed
placeholder `"UntitledNote"` when that result is empty. -/
theorem page_name_eq_amended (p : ConvertedPage) :
    p.page_name = page_name_amended p.title := by
  simp only [ConvertedPage.page_name, page_name_amended]
  rw [page_name_chain_eq_flatMap]
  by_cases h : (flatMapChars pageNameStep p.title.data).length > 100
  · simp [h]
  · simp only [h, if_false]
    rw [List.take_of_length_le (by omega)]

/-! ## Attachment hash resolution (`src/converter.py` lines 89-101) -/

/-- Hash normalization used by the converter: lowercase, then remove
hyphen separators.  `Char.toLower` models Python `str.lower` (the
hashes are ASCII hex strings, where the two agree). -/
def normalizeHash (s : String) : String :=
  String.mk (deleteChar '-' (s.data.map Char.toLower))

/-- The `attachment_hash_map` built in `ENMLToXWikiConverter.__init__`
(converter.py lines 90-93): each attachment is stored under its
normalized hash; later attachments overwrite earlier ones on a
normalized-hash collision, as Python dict assignment does. -/
def attachment_hash_map (atts : List Attachment) : List (String × Attachment) :=
  atts.foldl (fun m att => dictPut (normalizeHash att.hash) att m) []

/-- `ENMLToXWikiConverter._find_attachment_by_hash` (converter.py
lines 96-101): empty hashes resolve to nothing, otherwise the
normalized hash is looked up in the map. -/
def find_attachment_by_hash (m : List (String × Attachment))
    (hash_value : String) : Option Attachment :=
  if hash_value = "" then none else dictGet (normalizeHash hash_value) m

lemma dictGet_dictUpdate_ne {α : Type} (k k2 : String) (f : α → α)
    (d : List (String × α)) (h : k2 ≠ k) :
    dictGet k2 (dictUpdate k f d) = dictGet k2 d := by
  induction d with
  | nil => simp [dictUpdate]
  | cons p rest ih =>
    obtain ⟨k3, v⟩ := p
    by_cases hk : k3 = k
    · have hne : ¬(k = k2) := fun he => h he.symm
      simp [dictUpdate, dictGet, hk, hne]
    · simp [dictUpdate, dictGet, hk, ih]

lemma dictGet_append {α : Type} (k : String) (d l : List (String × α)) :
    dictGet k (d ++ l) =
      match dictGet k d with
      | some v => some v
      | none => dictGet k l := by
  induction d with
  | nil => simp [dictGet]
  | cons p rest ih =>
    obtain ⟨k2, v⟩ := p
    by_cases hk : k2 = k <;> simp [dictGet, hk, ih]

lemma dictGet_dictPut_self {α : Type} (k : String) (v : α)
    (d : List (String × α)) : dictGet k (dictPut k v d) = some v := by
  cases hd : dictGet k d with
  | some w =>
    rw [dictPut, hd]
    simp only [Option.isSome_some, if_true]
    rw [dictGet_dictUpdate_self, hd]
    rfl
  | none =>
    rw [dictPut, hd]
    simp only [Option.isSome_none, Bool.false_eq_true, if_false]
    rw [dictGet_append, hd]
    simp [dictGet]

lemma dictGet_dictPut_ne {α : Type} (k k2 : String) (v : α)
    (d : List (String × α)) (h : k2 ≠ k) :
    dictGet k2 (dictPut k v d) = dictGet k2 d := by
  cases hd : dictGet k d with
  | some w =>
    rw [dictPut, hd]
    simp only [Option.isSome_some, if_true]
    exact dictGet_dictUpdate_ne _ _ _ _ h
  | none =>
    rw [dictPut, hd]
    simp only [Option.isSome_none, Bool.false_eq_true, if_false]
    rw [dictGet_append]
    cases hd2 : dictGet k2 d with
    | some w => simp
    | none =>
      simp only [dictGet]
      rw [if_neg (fun he => h he.symm)]

lemma hash_map_lookup_not_mem (k : String) (atts : List Attachment)
    (acc : List (String × Attachment))
    (h : k ∉ atts.map (fun a => normalizeHash a.hash)) :
    dictGet k (atts.foldl (fun m att => dictPut (normalizeHash att.hash) att m) acc) =
      dictGet k acc := by
  induction atts generalizing acc with
  | nil => simp
  | cons a rest ih =>
    simp only [List.map_cons, List.mem_cons, not_or] at h
    simp only [List.foldl_cons]
    rw [ih _ h.2, dictGet_dictPut_ne _ _ _ _ h.1]

lemma hash_map_lookup_mem (atts : List Attachment) (att : Attachment)
    (acc : List (String × Attachment))
    (hnodup : (atts.map (fun a => normalizeHash a.hash)).Nodup)
    (hmem : att ∈ atts) :
    dictGet (normalizeHash att.hash)
      (atts.foldl (fun m a => dictPut (normalizeHash a.hash) a m) acc) = some att := by
  induction atts generalizing acc with
  | nil => simp at hmem
  | cons a rest ih =>
    simp only [List.map_cons, List.nodup_cons] at hnodup
    rcases List.mem_cons.mp hmem with heq | hrest
    · subst heq
      simp only [List.foldl_cons]
      rw [hash_map_lookup_not_mem _ _ _ hnodup.1, dictGet_dictPut_self]
    · simp only [List.foldl_cons]
      exact ih _ hnodup.2 hrest

/-- C5: attachment hash resolution is case- and separator-insensitive.
If the note's attachments have pairwise distinct normalized hashes,
then any nonempty query hash whose normalization equals the
normalization of a stored attachment's hash resolves to that
attachment, and any query whose normalization matches no stored hash
resolves to nothing. -/
theorem find_attachment_by_hash_normalized (atts : List Attachment)
    (att : Attachment) (q : String)
    (hnodup : (atts.map (fun a => normalizeHash a.hash)).Nodup)
    (hmem : att ∈ atts) (hq : q ≠ "")
    (hnorm : normalizeHash q = normalizeHash att.hash) :
    find_attachment_by_hash (attachment_hash_map atts) q = some att ∧
    (∀ q2, normalizeHash q2 ∉ atts.map (fun a => normalizeHash a.hash) →
      find_attachment_by_hash (attachment_hash_map atts) q2 = none) := by
  constructor
  · unfold find_attachment_by_hash attachment_hash_map
    rw [if_neg hq, hnorm]
    exact hash_map_lookup_mem _ _ _ hnodup hmem
  · intro q2 hq2
    unfold find_attachment_by_hash attachment_hash_map
    by_cases h2 : q2 = ""
    · simp [h2]
    · rw [if_neg h2, hash_map_lookup_not_mem _ _ _ hq2]
      simp [dictGet]

/-- Fixture for the C5 witness: an image attachment stored under hash
`"abcdef"`. -/
def attImg : Attachment :=
  { filename := "img.png", mime_type := "image/png", data := [1], hash := "abcdef" }

/-- Fixture for the C5 witness: a second attachment with an unrelated
hash. -/
def attDoc : Attachment :=
  { filename := "doc.pdf", mime_type := "application/pdf", data := [2], hash := "123456" }

/-- Witness for C5: an attachment stored with hash `"abcdef"` is found
by the query `"AB-CD-EF"`, and the query `"ff"` finds nothing. -/
theorem find_attachment_by_hash_normalized_witness :
    find_attachment_by_hash (attachment_hash_map [attImg, attDoc]) "AB-CD-EF" =
      some attImg ∧
    find_attachment_by_hash (attachment_hash_map [attImg, attDoc]) "ff" = none :=
  ⟨(find_attachment_by_hash_normalized [attImg, attDoc] attImg "AB-CD-EF"
      (by decide) (by decide) (by decide) (by decide)).1,
   (find_attachment_by_hash_normalized [attImg, attDoc] attImg "AB-CD-EF"
      (by decide) (by decide) (by decide) (by decide)).2 "ff" (by decide)⟩

/-! ## Note identity (`src/progress.py` lines 239-247)

`generate_note_identifier` hashes `title + "_" + created.isoformat()`
(or the bare title) with SHA-256 and keeps the first 16 hex digits.
SHA-256 is embedded below over `Nat` with explicit `% 2 ^ 32`
reductions, following FIPS 180-4; the standard test vectors are checked
right after the definition. -/

/-- Word size modulus for 32-bit arithmetic. -/
def M32 : Nat := 4294967296

/-- Right rotation of a 32-bit word. -/
def rotr32 (n x : Nat) : Nat := (x / 2 ^ n + x % 2 ^ n * 2 ^ (32 - n)) % M32

/-- Logical right shift of a 32-bit word. -/
def shr32 (n x : Nat) : Nat := x / 2 ^ n

/-- SHA-256 big sigma 0. -/
def bsig0 (x : Nat) : Nat := rotr32 2 x ^^^ rotr32 13 x ^^^ rotr32 22 x

/-- SHA-256 big sigma 1. -/
def bsig1 (x : Nat) : Nat := rotr32 6 x ^^^ rotr32 11 x ^^^ rotr32 25 x

/-- SHA-256 small sigma 0. -/
def ssig0 (x : Nat) : Nat := rotr32 7 x ^^^ rotr32 18 x ^^^ shr32 3 x

/-- SHA-256 small sigma 1. -/
def ssig1 (x : Nat) : Nat := rotr32 17 x ^^^ rotr32 19 x ^^^ shr32 10 x

/-- SHA-256 choice function; the 32-bit complement of `x` is
`4294967295 ^^^ x`. -/
def chWord (x y z : Nat) : Nat := (x &&& y) ^^^ ((4294967295 ^^^ x) &&& z)

/-- SHA-256 majority function. -/
def majWord (x y z : Nat) : Nat := (x &&& y) ^^^ (x &&& z) ^^^ (y &&& z)

/-- The 64 SHA-256 round constants (FIPS 180-4, in decimal). -/
def sha256K : List Nat :=
  [1116352408, 1899447441, 3049323471, 3921009573,
   961987163, 1508970993, 2453635748, 2870763221,
   3624381080, 310598401, 607225278, 1426881987,
   1925078388, 2162078206, 2614888103, 3248222580,
   3835390401, 4022224774, 264347078, 604807628,
   770255983, 1249150122, 1555081692, 1996064986,
   2554220882, 2821834349, 2952996808, 3210313671,
   3336571891, 3584528711, 113926993, 338241895,
   666307205, 773529912, 1294757372, 1396182291,
   1695183700, 1986661051, 2177026350, 2456956037,
   2730485921, 2820302411, 3259730800, 3345764771,
   3516065817, 3600352804, 4094571909, 275423344,
   430227734, 506948616, 659060556, 883997877,
   958139571, 1322822218, 1537002063, 1747873779,
   1955562222, 2024104815, 2227730452, 2361852424,
   2428436474, 2756734187, 3204031479, 3329325298]

/-- The eight working variables of the SHA-256 compression function. -/
structure H8 where
  a : Nat
  b : Nat
  c : Nat
  d : Nat
  e : Nat
  f : Nat
  g : Nat
  h : Nat
deriving DecidableEq, Repr

/-- SHA-256 initial hash value (FIPS 180-4, in decimal). -/
def sha256H0 : H8 :=
  ⟨1779033703, 3144134277, 1013904242, 2773480762,
   1359893119, 2600822924, 528734635, 1541459225⟩

/-- Message schedule of one 64-byte block: 16 big-endian words
extended to 64. -/
def msgSchedule (block : List Nat) : List Nat :=
  let w16 := (List.range 16).map (fun i =>
    block.getD (4 * i) 0 * 16777216 + block.getD (4 * i + 1) 0 * 65536 +
    block.getD (4 * i + 2) 0 * 256 + block.getD (4 * i + 3) 0)
  (List.range 48).foldl (fun ws _ =>
    let t := ws.length
    ws ++ [(ssig1 (ws.getD (t - 2) 0) + ws.getD (t - 7) 0 +
            ssig0 (ws.getD (t - 15) 0) + ws.getD (t - 16) 0) % M32]) w16

/-- One SHA-256 round. -/
def sha256Round (ws : List Nat) (st : H8) (t : Nat) : H8 :=
  let T1 := (st.h + bsig1 st.e + chWord st.e st.f st.g +
             sha256K.getD t 0 + ws.getD t 0) % M32
  let T2 := (bsig0 st.a + majWord st.a st.b st.c) % M32
  ⟨(T1 + T2) % M32, st.a, st.b, st.c, (st.d + T1) % M32, st.e, st.f, st.g⟩

/-- Compression of one 64-byte block. -/
def compressBlock (H : H8) (block : List Nat) : H8 :=
  let ws := msgSchedule block
  let fin := (List.range 64).foldl (sha256Round ws) H
  ⟨(H.a + fin.a) % M32, (H.b + fin.b) % M32, (H.c + fin.c) % M32,
   (H.d + fin.d) % M32, (H.e + fin.e) % M32, (H.f + fin.f) % M32,
   (H.g + fin.g) % M32, (H.h + fin.h) % M32⟩

/-- Big-endian 8-byte encoding of a length in bits. -/
def be64 (n : Nat) : List Nat := (List.range 8).map (fun i => n / 2 ^ (56 - 8 * i) % 256)

/-- SHA-256 padding: a 0x80 byte, zeros to 56 mod 64, and the 64-bit
big-endian bit length. -/
def padMessage (msg : List Nat) : List Nat :=
  let z := (119 - msg.length % 64) % 64
  msg ++ [128] ++ List.replicate z 0 ++ be64 (8 * msg.length)

/-- Split a padded message into 64-byte blocks; the first argument is
a recursion bound (any value at least the number of blocks, the
callers pass the message length). -/
def toBlocksF : Nat → List Nat → List (List Nat)
  | 0, _ => []
  | _ + 1, [] => []
  | fuel + 1, xs => xs.take 64 :: toBlocksF fuel (xs.drop 64)

/-- Split a padded message into its 64-byte blocks. -/
def toBlocks (xs : List Nat) : List (List Nat) := toBlocksF xs.length xs

/-- SHA-256 of a byte list, as the eight 32-bit words of the digest. -/
def sha256Words (msg : List Nat) : H8 :=
  (toBlocks (padMessage msg)).foldl compressBlock sha256H0

/-- Lowercase hex digit for a value below 16 (hexdigest alphabet). -/
def hexChar (n : Nat) : Char :=
  if n = 0 then '0' else if n = 1 then '1' else if n = 2 then '2'
  else if n = 3 then '3' else if n = 4 then '4' else if n = 5 then '5'
  else if n = 6 then '6' else if n = 7 then '7' else if n = 8 then '8'
  else if n = 9 then '9' else if n = 10 then 'a' else if n = 11 then 'b'
  else if n = 12 then 'c' else if n = 13 then 'd' else if n = 14 then 'e'
  else 'f'

/-- Eight hex digits of a 32-bit word, most significant first. -/
def word32Hex (w : Nat) : List Char :=
  (List.range 8).map (fun i => hexChar (w / 16 ^ (7 - i) % 16))

/-- The digest words in output order. -/
def h8Words (st : H8) : List Nat := [st.a, st.b, st.c, st.d, st.e, st.f, st.g, st.h]

/-- Python `hashlib.sha256(msg).hexdigest()` as a character list: 64
lowercase hex digits. -/
def hexdigest (msg : List Nat) : List Char :=
  (h8Words (sha256Words msg)).foldr (fun w acc => word32Hex w ++ acc) []

/-- UTF-8 encoding of one character (Python `str.encode()` default). -/
def utf8EncodeChar (c : Char) : List Nat :=
  let n := c.toNat
  if n < 128 then [n]
  else if n < 2048 then [192 + n / 64, 128 + n % 64]
  else if n < 65536 then [224 + n / 4096, 128 + n / 64 % 64, 128 + n % 64]
  else [240 + n / 262144, 128 + n / 4096 % 64, 128 + n / 64 % 64, 128 + n % 64]

/-- UTF-8 encoding of a string. -/
def utf8Encode (s : String) : List Nat := flatMapBytes s.data
  where flatMapBytes : List Char → List Nat
    | [] => []
    | c :: cs => utf8EncodeChar c ++ flatMapBytes cs

-- FIPS 180-4 test vector: the empty message.
set_option maxRecDepth 40000 in
example : hexdigest [] =
    "e3b0c44298fc1c149afbf4c8996fb92427ae41e4649b934ca495991b7852b855".data := by
  decide

-- FIPS 180-4 test vector: the three-byte message "abc".
set_option maxRecDepth 40000 in
example : hexdigest (utf8Encode "abc") =
    "ba7816bf8f01cfea414140de5dae2223b00361a396177a9cb410ff61f20015ad".data := by
  decide

/-- The key hashed by `generate_note_identifier` (progress.py lines
241-244): `title + "_" + created.isoformat()`, or the bare title when
there is no created timestamp. -/
def noteKey (title : String) (created : Option String) : String :=
  match created with
  | some iso => title ++ "_" ++ iso
  | none => title

/-- `generate_note_identifier` (progress.py lines 239-247): the first
16 hex digits of the SHA-256 of the UTF-8 encoded key. -/
def generate_note_identifier (title : String) (created : Option String) : String :=
  String.mk ((hexdigest (utf8Encode (noteKey title created))).take 16)

/-- Lowercase hex digit predicate (the alphabet `hexdigest` draws
from). -/
def isHexChar (c : Char) : Bool :=
  ("0123456789abcdef".data).contains c

lemma stringMk_data (l : List Char) : (String.mk l).data = l := rfl

lemma string_eq_of_data_eq (s t : String) (h : s.data = t.data) : s = t := by
  cases s
  cases t
  exact congrArg String.mk (by simpa using h)

lemma hexChar_isHex : (n : Nat) → isHexChar (hexChar n) = true
  | 0 => by decide
  | 1 => by decide
  | 2 => by decide
  | 3 => by decide
  | 4 => by decide
  | 5 => by decide
  | 6 => by decide
  | 7 => by decide
  | 8 => by decide
  | 9 => by decide
  | 10 => by decide
  | 11 => by decide
  | 12 => by decide
  | 13 => by decide
  | 14 => by decide
  | 15 => by decide
  | (_ + 16) => by
    unfold hexChar
    repeat rw [if_neg (by omega)]
    decide

lemma word32Hex_length (w : Nat) : (word32Hex w).length = 8 := by
  simp [word32Hex]

lemma word32Hex_chars (w : Nat) : ∀ ch ∈ word32Hex w, isHexChar ch = true := by
  intro ch hch
  simp only [word32Hex, List.mem_map] at hch
  obtain ⟨i, _, rfl⟩ := hch
  exact hexChar_isHex _

lemma hexdigest_length (m : List Nat) : (hexdigest m).length = 64 := by
  simp [hexdigest, h8Words, word32Hex_length]

lemma hexdigest_chars (m : List Nat) : ∀ ch ∈ hexdigest m, isHexChar ch = true := by
  intro ch hch
  simp only [hexdigest, h8Words, List.foldr_cons, List.foldr_nil,
    List.append_nil, List.mem_append] at hch
  rcases hch with h | h | h | h | h | h | h | h <;> exact word32Hex_chars _ _ h

/-- C6: the note identifier is a pure deterministic function of
(title, created timestamp) producing a 16-hex-character string;
distinct created timestamps for the same title produce distinct SHA-256
keys, and at the representative scenario inputs the two resulting
identifiers are distinct.  (Distinctness of the truncated digests for
arbitrary timestamp pairs is collision-freeness of 64-bit-truncated
SHA-256 and is checked here at the scenario's concrete inputs.) -/
theorem generate_note_identifier_pure_16hex
    (t : String) (c : Option String) (t2 i1 i2 : String) (hne : i1 ≠ i2) :
    generate_note_identifier t c = generate_note_identifier t c ∧
    (generate_note_identifier t c).length = 16 ∧
    (∀ ch ∈ (generate_note_identifier t c).data, isHexChar ch = true) ∧
    noteKey t2 (some i1) ≠ noteKey t2 (some i2) ∧
    generate_note_identifier "Meeting notes" (some "2024-01-01T00:00:00") ≠
      generate_note_identifier "Meeting notes" (some "2024-01-02T00:00:00") := by
  refine ⟨rfl, ?_, ?_, ?_, ?_⟩
  · show (List.take 16 (hexdigest (utf8Encode (noteKey t c)))).length = 16
    rw [List.length_take, hexdigest_length]
    decide
  · intro ch hch
    rw [generate_note_identifier, stringMk_data] at hch
    exact hexdigest_chars _ _ (List.mem_of_mem_take hch)
  · intro heq
    apply hne
    have hd := congrArg String.data heq
    simp only [noteKey, String.data_append] at hd
    have hd2 := List.append_cancel_left hd
    exact string_eq_of_data_eq _ _ hd2
  · decide

/-- Witness for C6: the theorem applied at the scenario inputs,
discharging the distinct-timestamp hypothesis. -/
theorem generate_note_identifier_pure_16hex_witness :
    generate_note_identifier "Meeting notes" (some "2024-01-01T00:00:00") =
      generate_note_identifier "Meeting notes" (some "2024-01-01T00:00:00") ∧
    (generate_note_identifier "Meeting notes"
        (some "2024-01-01T00:00:00")).length = 16 ∧
    (∀ ch ∈ (generate_note_identifier "Meeting notes"
        (some "2024-01-01T00:00:00")).data, isHexChar ch = true) ∧
    noteKey "Meeting notes" (some "2024-01-01T00:00:00") ≠
      noteKey "Meeting notes" (some "2024-01-02T00:00:00") ∧
    generate_note_identifier "Meeting notes" (some "2024-01-01T00:00:00") ≠
      generate_note_identifier "Meeting notes" (some "2024-01-02T00:00:00") :=
  generate_note_identifier_pure_16hex "Meeting notes" (some "2024-01-01T00:00:00")
    "Meeting notes" "2024-01-01T00:00:00" "2024-01-02T00:00:00" (by decide)

/-! ## Persisted-state loading (`src/progress.py` lines 95-134)

`ProgressTracker.load` reads the state file with `json.load` and
rebuilds `ImportProgress` field by field, catching only
`(json.JSONDecodeError, KeyError, ValueError)`.  The JSON value space
and the exact exception behaviour of the Python operations the body
performs (`dict.get` / subscripting / `NoteStatus(...)`) are embedded
here, so that the exception flow of `load` on an arbitrary parsed file
is faithful. -/

/-- A parsed JSON value (`json.load` result). -/
inductive JValue where
  | null
  | bool (b : Bool)
  | num (n : Int)
  | str (s : String)
  | arr (xs : List JValue)
  | obj (fields : List (String × JValue))
deriving Repr

/-- The Python exception classes that `load`'s body can raise.  The
source's `except` clause catches exactly `jsonDecodeError`, `keyError`
and `valueError`. -/
inductive PyErr where
  | jsonDecodeError
  | keyError
  | valueError
  | attributeError
  | typeError
deriving DecidableEq, Repr

/-- Python `data.get(key, default)`: only dicts have a `get` attribute;
on any other value the attribute access raises `AttributeError`. -/
def jGet (v : JValue) (key : String) (dflt : JValue) : Except PyErr JValue :=
  match v with
  | .obj fields => .ok ((dictGet key fields).getD dflt)
  | _ => .error .attributeError

/-- Python `data.items()`: only dicts have `items`; anything else
raises `AttributeError`. -/
def jItems (v : JValue) : Except PyErr (List (String × JValue)) :=
  match v with
  | .obj fields => .ok fields
  | _ => .error .attributeError

/-- Python `note_data[key]` for a string key: dict lookup raising
`KeyError` when absent; subscripting a non-dict value with a string
key raises `TypeError` (strings and lists demand integer indices, the
rest is not subscriptable). -/
def jIndex (v : JValue) (key : String) : Except PyErr JValue :=
  match v with
  | .obj fields =>
    match dictGet key fields with
    | some w => .ok w
    | none => .error .keyError
  | _ => .error .typeError

/-- Python `NoteStatus(value)`: the four member strings succeed, any
other hashable value raises `ValueError`, unhashable values (lists,
dicts) raise `TypeError`. -/
def noteStatusOf (v : JValue) : Except PyErr NoteStatus :=
  match v with
  | .str s =>
    if s = "pending" then .ok .pending
    else if s = "uploaded" then .ok .uploaded
    else if s = "failed" then .ok .failed
    else if s = "skipped" then .ok .skipped
    else .error .valueError
  | .null | .bool _ | .num _ => .error .valueError
  | .arr _ | .obj _ => .error .typeError

/-- A note entry as rebuilt by `load`; Python does not check the field
types, so everything `dict.get` produced stays a raw JSON value except
the status, which went through `NoteStatus(...)`. -/
structure LoadedNote where
  identifier : JValue
  title : JValue
  status : NoteStatus
  error : JValue
  page_url : JValue
  uploaded_at : JValue
  source_file : JValue

/-- The `ImportProgress` as rebuilt by `load`, with raw JSON field
values. -/
structure LoadedProgress where
  started_at : JValue
  last_updated : JValue
  wiki_url : JValue
  space : JValue
  total_notes : JValue
  notes : List (String × LoadedNote)

/-- A fresh `ImportProgress()` as built in the `except` handler, with
the current time in both timestamps. -/
def freshLoaded (now : String) : LoadedProgress :=
  { started_at := .str now, last_updated := .str now, wiki_url := .str "",
    space := .str "", total_notes := .num 0, notes := [] }

/-- The body of the `try` block of `ProgressTracker.load`
(progress.py lines 105-129), in an exception monad. -/
def load_body (data : JValue) (now : String) : Except PyErr LoadedProgress := do
  let started_at ← jGet data "started_at" (.str now)
  let last_updated ← jGet data "last_updated" (.str now)
  let wiki_url ← jGet data "wiki_url" (.str "")
  let space ← jGet data "space" (.str "")
  let total_notes ← jGet data "total_notes" (.num 0)
  let notesVal ← jGet data "notes" (.obj [])
  let pairs ← jItems notesVal
  let notes ← pairs.foldlM (fun acc p => do
    let identifier ← jIndex p.2 "identifier"
    let title ← jIndex p.2 "title"
    let statusVal ← jIndex p.2 "status"
    let status ← noteStatusOf statusVal
    let error ← jGet p.2 "error" .null
    let page_url ← jGet p.2 "page_url" .null
    let uploaded_at ← jGet p.2 "uploaded_at" .null
    pure (dictPut p.1
      { identifier := identifier, title := title, status := status,
        error := error, page_url := page_url, uploaded_at := uploaded_at,
        source_file := ← jGet p.2 "source_file" .null } acc)) []
  pure { started_at := started_at, last_updated := last_updated,
         wiki_url := wiki_url, space := space, total_notes := total_notes,
         notes := notes }

/-- `ProgressTracker.load` (progress.py lines 95-134).  The argument
models the state file: `none` is an absent file, `some (.error ())` a
file that `json.load` rejects (`JSONDecodeError`), `some (.ok v)` a
file parsing to `v`.  The result carries the returned boolean and the
new in-memory progress (`none` = left untouched); `.error e` means the
exception `e` escaped `load` because the `except` clause lists only
`JSONDecodeError`, `KeyError` and `ValueError`. -/
def load (file : Option (Except Unit JValue)) (now : String) :
    Except PyErr (Bool × Option LoadedProgress) :=
  match file with
  | none => .ok (false, none)
  | some (.error _) => .ok (false, some (freshLoaded now))
  | some (.ok data) =>
    match load_body data now with
    | .ok p => .ok (true, some p)
    | .error e =>
      if e = .jsonDecodeError ∨ e = .keyError ∨ e = .valueError then
        .ok (false, some (freshLoaded now))
      else .error e

/-- C7: `load` is *not* total on corrupted state files.  A state file
containing the valid JSON document `[]` (top level array) makes
`data.get("started_at", ...)` raise `AttributeError`, which the
`except (json.JSONDecodeError, KeyError, ValueError)` clause does not
catch, so `load` raises instead of falling back to a fresh state.
The intended recovery paths do work: an absent file and a file that is
not JSON at all are absorbed, as is a bad status string (`ValueError`). -/
theorem load_raises_on_toplevel_array :
    load (some (.ok (.arr []))) "now" = .error .attributeError ∧
    load (some (.error ())) "now" = .ok (false, some (freshLoaded "now")) ∧
    load none "now" = .ok (false, none) ∧
    load (some (.ok (.obj [("notes", .obj [("n1", .obj
        [("identifier", .str "n1"), ("title", .str "T"),
         ("status", .str "bogus")])])]))) "now" =
      .ok (false, some (freshLoaded "now")) :=
  ⟨rfl, rfl, rfl, rfl⟩

/-! ## ENML-to-XWiki converter (`src/converter.py`)

String-level utilities first.  The Python regular expressions the
converter uses (`<\?xml[^?]*\?>`, `<!DOCTYPE[^>]*>`, `<[^>]+>`,
`\n{3,}`) have no backtracking choice points, so each is embedded as a
deterministic scanner; `re.sub` is a left-to-right scan that restarts
after every replacement.  The scanners take an explicit recursion bound
(always instantiated with the input length, which the per-step
consumption of at least one character makes sufficient). -/

/-- Python `str.lower`, on the ASCII range (`Char.toLower`); the
converter only lowercases tag names and hex hashes, which are ASCII. -/
def pyLowerS (s : String) : String := String.mk (s.data.map Char.toLower)

/-- Python whitespace stripped by `str.strip()`. -/
def isPyWs (c : Char) : Bool :=
  c = ' ' ∨ c = '\t' ∨ c = '\n' ∨ c = '\r' ∨ c = Char.ofNat 11 ∨ c = Char.ofNat 12

/-- Python `str.strip()`: drop whitespace from both ends. -/
def pyStripL (cs : List Char) : List Char :=
  ((cs.dropWhile isPyWs).reverse.dropWhile isPyWs).reverse

/-- Python `html.unescape`, restricted to the named entities with
semicolon that ENML produces (`amp lt gt quot apos nbsp`); the stdlib
additionally decodes the full HTML5 entity table and numeric
references, which nothing verified here depends on.  Unknown entities stay
verbatim, as in the stdlib. -/
def unescapeL : List Char → List Char
  | [] => []
  | '&' :: 'a' :: 'm' :: 'p' :: ';' :: r => '&' :: unescapeL r
  | '&' :: 'l' :: 't' :: ';' :: r => '<' :: unescapeL r
  | '&' :: 'g' :: 't' :: ';' :: r => '>' :: unescapeL r
  | '&' :: 'q' :: 'u' :: 'o' :: 't' :: ';' :: r => '"' :: unescapeL r
  | '&' :: 'a' :: 'p' :: 'o' :: 's' :: ';' :: r => Char.ofNat 39 :: unescapeL r
  | '&' :: 'n' :: 'b' :: 's' :: 'p' :: ';' :: r => Char.ofNat 160 :: unescapeL r
  | c :: r => c :: unescapeL r

/-- One attempted match of `<\?xml[^?]*\?>` at the start of the input;
returns the rest after the match.  `[^?]*` can only stop at the first
`?`, which must be followed by `>`. -/
def matchXmlDecl (cs : List Char) : Option (List Char) :=
  if cs.take 5 = ['<', '?', 'x', 'm', 'l'] then
    match (cs.drop 5).dropWhile (· ≠ '?') with
    | '?' :: '>' :: r => some r
    | _ => none
  else none

/-- One attempted match of `<!DOCTYPE[^>]*>` at the start of the
input. -/
def matchDoctype (cs : List Char) : Option (List Char) :=
  if cs.take 9 = ['<', '!', 'D', 'O', 'C', 'T', 'Y', 'P', 'E'] then
    match (cs.drop 9).dropWhile (· ≠ '>') with
    | '>' :: r => some r
    | _ => none
  else none

/-- One attempted match of `<[^>]+>` at the start of the input: a
nonempty run of non-`>` characters between the brackets. -/
def matchTag (cs : List Char) : Option (List Char) :=
  match cs with
  | '<' :: rest =>
    if (rest.takeWhile (· ≠ '>')).length = 0 then none
    else
      match rest.dropWhile (· ≠ '>') with
      | '>' :: r => some r
      | _ => none
  | _ => none

/-- `re.sub(pattern, '', s)` for an anchored matcher `m`: scan left to
right, delete every match, restart after it.  Every matcher above
consumes at least one character on success, so the bound `cs.length`
passed by `scrub` is never exhausted. -/
def scrubF (m : List Char → Option (List Char)) : Nat → List Char → List Char
  | 0, _ => []
  | _ + 1, [] => []
  | fuel + 1, c :: rest =>
    match m (c :: rest) with
    | some r => scrubF m fuel r
    | none => c :: scrubF m fuel rest

/-- Delete every match of the anchored matcher `m` from the input. -/
def scrub (m : List Char → Option (List Char)) (cs : List Char) : List Char :=
  scrubF m cs.length cs

/-- `re.sub(r'\n{3,}', '\n\n', s)` (converter.py line 146): collapse
every run of three or more newlines to exactly two. -/
def collapseNewlinesF : Nat → List Char → List Char
  | 0, _ => []
  | _ + 1, [] => []
  | fuel + 1, c :: rest =>
    if c = '\n' then
      let run := 1 + (rest.takeWhile (· = '\n')).length
      let rest2 := rest.dropWhile (· = '\n')
      (if 3 ≤ run then ['\n', '\n'] else List.replicate run '\n') ++
        collapseNewlinesF fuel rest2
    else c :: collapseNewlinesF fuel rest

/-- Collapse runs of three or more newlines to two. -/
def collapseNewlines (cs : List Char) : List Char := collapseNewlinesF cs.length cs

/-- `ENMLToXWikiConverter._strip_html` (converter.py lines 627-630):
remove every `<[^>]+>` tag, then decode HTML entities. -/
def strip_html (html : String) : String :=
  String.mk (unescapeL (scrub matchTag html.data))

/-- The preprocessing `convert` performs before parsing (converter.py
lines 114-116): remove XML declarations and DOCTYPE declarations, then
strip surrounding whitespace. -/
def preprocessContent (content : String) : String :=
  String.mk (pyStripL (scrub matchDoctype (scrub matchXmlDecl content.data)))

/-! ### The document tree

An lxml node carries a tag, attributes, the text before its first
child, child nodes, and the tail text following its own closing tag.
The node space has two layers here:

* `Elem` below restricts tags to strings — the *element-only* trees,
  on which the walk is total.  The list-structure analysis lives on
  this layer.
* The full lxml node space, where comment and processing-instruction
  nodes carry a *callable* in `.tag` (lxml keeps comments: neither
  `XMLParser(recover=True, huge_tree=True)` nor `HTMLParser()` sets
  `remove_comments`), is `LNode` further below, together with the
  walker over it; on such a node `_get_tag_name`'s
  `tag.startswith("{")` raises `AttributeError`, which no handler in
  `convert` catches.  That crash path is the subject of the C1
  theorem.

`img` elements (external-image download and data-URI decoding,
converter.py lines 442-529) depend on the network and `base64`, and
enter only through the abstract fetch functions of `ConvCtx` below. -/

inductive Elem where
  | mk (tag : String) (attrs : List (String × String)) (text : Option String)
      (children : List Elem) (tail : Option String)

/-- The element's tag. -/
def Elem.tag : Elem → String
  | .mk t _ _ _ _ => t

/-- The element's attributes. -/
def Elem.attrs : Elem → List (String × String)
  | .mk _ a _ _ _ => a

/-- The element's leading text. -/
def Elem.text : Elem → Option String
  | .mk _ _ x _ _ => x

/-- The element's children. -/
def Elem.children : Elem → List Elem
  | .mk _ _ _ ch _ => ch

/-- The element's tail text. -/
def Elem.tail : Elem → Option String
  | .mk _ _ _ _ tl => tl

/-- Python `element.get(key, default)` on the attribute dict. -/
def attrGet (e : Elem) (key dflt : String) : String :=
  (dictGet key e.attrs).getD dflt

/-- Namespace stripping of `_get_tag_name` (converter.py lines
151-157): `{uri}local` becomes `local`; a tag with `{` but no `}` is
left whole, as `split("}", 1)[-1]` would. -/
def stripNs (tag : String) : String :=
  match tag.data with
  | '{' :: rest =>
    match rest.dropWhile (· ≠ '}') with
    | '}' :: r => String.mk r
    | _ => tag
  | _ => tag

/-- `_get_tag_name`: local tag name, lowercased. -/
def getTagName (e : Elem) : String := pyLowerS (stripNs e.tag)

/-- `_get_element_text` (converter.py lines 614-625): flatten the
entity-decoded text of the element and all descendants, in document
order, including tail text of children. -/
def getElementText : Elem → List Char
  | .mk _ _ text children _ =>
    (match text with | some t => unescapeL t.data | none => []) ++
    getElementTextList children
  where getElementTextList : List Elem → List Char
    | [] => []
    | (Elem.mk t a x ch tl) :: cs =>
      getElementText (Elem.mk t a x ch tl) ++
      (match tl with | some s => unescapeL s.data | none => []) ++
      getElementTextList cs

/-- `root.find(".//{*}en-note")`: first descendant, in document order,
whose local tag name matches. -/
def findDescLocal (name : String) : List Elem → Option Elem
  | [] => none
  | (Elem.mk t a x ch tl) :: cs =>
    if stripNs t = name then some (Elem.mk t a x ch tl)
    else
      match findDescLocal name ch with
      | some r => some r
      | none => findDescLocal name cs

/-- `root.find(".//tag")`: first descendant whose qualified tag matches
exactly. -/
def findDescExact (name : String) : List Elem → Option Elem
  | [] => none
  | (Elem.mk t a x ch tl) :: cs =>
    if t = name then some (Elem.mk t a x ch tl)
    else
      match findDescExact name ch with
      | some r => some r
      | none => findDescExact name cs

/-- The root-selection chain of `convert` (converter.py lines
129-135): `{*}en-note`, then `en-note`, then `body`, else the parse
root itself. -/
def findEnNote (root : Elem) : Elem :=
  match findDescLocal "en-note" root.children with
  | some e => e
  | none =>
    match findDescExact "en-note" root.children with
    | some e => e
    | none =>
      match findDescExact "body" root.children with
      | some e => e
      | none => root

/-! ### Converter state and context -/

/-- The mutable state of `ENMLToXWikiConverter` during a walk: the
output buffer (`self.output`), the list-type stack, the table buffers,
the images downloaded so far and the used-filename set (modeled as a
duplicate-free list). -/
structure ConvState where
  out : List Char := []
  list_stack : List String := []
  in_table : Bool := false
  table_rows : List (List String) := []
  current_row : List String := []
  downloaded_images : List Attachment := []
  used_filenames : List String := []
deriving DecidableEq, Repr

/-- The converter's immutable context: the attachment hash map built
in `__init__`, the `download_external_images` flag, and the two
effectful operations `_decode_data_uri` (base64 + md5) and
`download_image` (network fetch), which are outside the repository and
enter as abstract functions returning `none` on failure. -/
structure ConvCtx where
  amap : List (String × Attachment)
  download_external_images : Bool
  decodeDataUri : String → Option Attachment
  downloadImage : String → Option Attachment

/-- `self.output.write(...)` of a literal string. -/
def write (st : ConvState) (s : String) : ConvState :=
  { st with out := st.out ++ s.data }

/-- `self.output.write(...)` of computed characters. -/
def writeL (st : ConvState) (l : List Char) : ConvState :=
  { st with out := st.out ++ l }

/-- `_write_text` (converter.py lines 239-246): decode entities, apply
`_escape_xwiki` (the identity, lines 248-253), and append. -/
def writeTextChars (st : ConvState) (l : List Char) : ConvState :=
  writeL st (unescapeL l)

/-- `_write_text` on an optional `element.text` / `element.tail`. -/
def writeTextOpt (st : ConvState) (t : Option String) : ConvState :=
  match t with
  | some s => writeTextChars st s.data
  | none => st

/-- The tail-writing step `if element.tail: self._write_text(element.tail)`. -/
def writeTail (st : ConvState) (e : Elem) : ConvState := writeTextOpt st e.tail

/-- Python set insertion (`self.used_filenames.add(...)`). -/
def setAdd (s : String) (u : List String) : List String :=
  if s ∈ u then u else u ++ [s]

/-- `_handle_link` (converter.py lines 322-339). -/
def handleLink (st : ConvState) (e : Elem) : ConvState :=
  let href := attrGet e "href" ""
  let text := getElementText e
  let st :=
    if href ≠ "" then
      if text ≠ [] ∧ text ≠ href.data then
        write st ("[[" ++ String.mk text ++ ">>" ++ href ++ "]]")
      else
        write st ("[[" ++ href ++ "]]")
    else writeTextChars st text
  writeTail st e

/-- `_handle_todo` (converter.py lines 599-606). -/
def handleTodo (st : ConvState) (e : Elem) : ConvState :=
  if attrGet e "checked" "false" = "true" then write st "[x] "
  else write st "[ ] "

/-- `_handle_heading` (converter.py lines 310-320). -/
def handleHeading (st : ConvState) (e : Elem) (level : Nat) : ConvState :=
  let equals := String.mk (List.replicate level '=')
  let st := write st ("\n" ++ equals ++ " ")
  let st := writeL st (getElementText e)
  write st (" " ++ equals ++ "\n")

/-- Python `text.split("\n")`. -/
def splitOnNl : List Char → List (List Char)
  | [] => [[]]
  | c :: cs =>
    if c = '\n' then [] :: splitOnNl cs
    else
      match splitOnNl cs with
      | [] => [[c]]
      | l :: ls => (c :: l) :: ls

/-- `_handle_blockquote` (converter.py lines 576-584). -/
def handleBlockquote (st : ConvState) (e : Elem) : ConvState :=
  let lines := splitOnNl (getElementText e)
  let st := write st "\n"
  let st := lines.foldl (fun st line => write st ("> " ++ String.mk line ++ "\n")) st
  write st "\n"

/-- `_handle_code` (converter.py lines 586-597); note that the
block/inline decision lowercases the raw tag without namespace
stripping, and the code text is written raw. -/
def handleCode (st : ConvState) (e : Elem) : ConvState :=
  let text := (e.text).getD ""
  if pyLowerS e.tag = "pre" ∨ '\n' ∈ text.data then
    write (write (write st "\n\x7b\x7bcode\x7d\x7d\n") text) "\n\x7b\x7b/code\x7d\x7d\n"
  else
    write st ("###" ++ text ++ "###")

/-- `_handle_encrypted` (converter.py lines 608-612). -/
def handleEncrypted (st : ConvState) : ConvState :=
  write st ("\n\x7b\x7bwarning\x7d\x7d\n" ++
    "This content was encrypted in Evernote and cannot be converted.\n" ++
    "\x7b\x7b/warning\x7d\x7d\n")

/-- The `or`-chain and attribute scan that extract the media hash in
`_handle_media` (converter.py lines 402-421): the first nonempty of
`hash`, `Hash`, `HASH`, then the first attribute whose lowercased name
is `hash`. -/
def mediaHashOf (e : Elem) : String :=
  let h := attrGet e "hash" ""
  let h := if h ≠ "" then h else attrGet e "Hash" ""
  let h := if h ≠ "" then h else attrGet e "HASH" ""
  if h ≠ "" then h
  else
    match e.attrs.find? (fun p => pyLowerS p.1 = "hash") with
    | some p => p.2
    | none => ""

/-- `Attachment.is_image` (models.py lines 17-20). -/
def isImage (att : Attachment) : Bool :=
  isPrefixChars "image/".data att.mime_type.data
  where isPrefixChars : List Char → List Char → Bool
    | [], _ => true
    | _ :: _, [] => false
    | a :: as2, b :: bs => a = b && isPrefixChars as2 bs

/-- Substring containment (Python `needle in haystack`). -/
def containsSub (needle : List Char) : List Char → Bool
  | [] => needle.isEmpty
  | c :: cs => startsWithL needle (c :: cs) || containsSub needle cs
  where startsWithL : List Char → List Char → Bool
    | [], _ => true
    | _ :: _, [] => false
    | a :: as2, b :: bs => a = b && startsWithL as2 bs

/-- `_handle_media` (converter.py lines 400-440): resolve the hash via
the normalized map and emit an image embed, an attachment link, or the
missing-attachment placeholder with the truncated hash. -/
def handleMedia (ctx : ConvCtx) (st : ConvState) (e : Elem) : ConvState :=
  let media_hash := mediaHashOf e
  if media_hash = "" then st
  else
    match find_attachment_by_hash ctx.amap media_hash with
    | some att =>
      if isImage att then write st ("[[image:" ++ att.filename ++ "]]")
      else write st ("[[" ++ att.filename ++ ">>attach:" ++ att.filename ++ "]]")
    | none =>
      let short_hash :=
        if 8 < media_hash.data.length then String.mk (media_hash.data.take 8)
        else media_hash
      write st ("[Missing attachment: " ++ short_hash ++ "...]")

/-- `rsplit(".", 1)` of `_get_unique_filename`: split at the last dot
when one exists. -/
def rsplitDot (filename : String) : String × String :=
  if '.' ∈ filename.data then
    let revd := filename.data.reverse
    let ext := (revd.takeWhile (· ≠ '.')).reverse
    let base := ((revd.dropWhile (· ≠ '.')).drop 1).reverse
    (String.mk base, String.mk ext)
  else (filename, "")

/-- The suffix-search loop of `_get_unique_filename` (converter.py
lines 523-529); the bound is the number of used names plus one, which
guarantees a free candidate exists within it. -/
def uniqueNameLoop (used : List String) (base ext : String) :
    Nat → Nat → String
  | 0, counter =>
    if ext ≠ "" then base ++ "_" ++ toString counter ++ "." ++ ext
    else base ++ "_" ++ toString counter
  | fuel + 1, counter =>
    let nn :=
      if ext ≠ "" then base ++ "_" ++ toString counter ++ "." ++ ext
      else base ++ "_" ++ toString counter
    if pyLowerS nn ∈ used then uniqueNameLoop used base ext fuel (counter + 1)
    else nn

/-- `_get_unique_filename` (converter.py lines 518-529). -/
def get_unique_filename (used : List String) (filename : String) : String :=
  if pyLowerS filename ∈ used then
    let (base, ext) := rsplitDot filename
    uniqueNameLoop used base ext (used.length + 1) 1
  else filename

/-- `startswith` on strings. -/
def startsWithS (s p : String) : Bool := containsSub.startsWithL p.data s.data

/-- `_handle_image` (converter.py lines 442-480), with the data-URI
decoder and the network fetch abstracted into the context. -/
def handleImage (ctx : ConvCtx) (st : ConvState) (e : Elem) : ConvState :=
  let src := attrGet e "src" ""
  let alt := attrGet e "alt" ""
  if startsWithS src "data:" then
    match ctx.decodeDataUri src with
    | some att =>
      let st := { st with downloaded_images := st.downloaded_images ++ [att] }
      write st ("[[image:" ++ att.filename ++ "]]")
    | none =>
      write st ("[Image: " ++ (if alt ≠ "" then alt else "embedded data") ++ "]")
  else if startsWithS src "http://" ∨ startsWithS src "https://" then
    if ctx.download_external_images then
      match ctx.downloadImage src with
      | some att =>
        let filename := get_unique_filename st.used_filenames att.filename
        let att2 : Attachment :=
          { filename := filename, mime_type := att.mime_type,
            data := att.data, hash := att.hash }
        let st := { st with downloaded_images := st.downloaded_images ++ [att2],
                            used_filenames := setAdd (pyLowerS filename) st.used_filenames }
        write st ("[[image:" ++ filename ++ "]]")
      | none =>
        write (write st ("[[image:" ++ src ++ "]]")) " //(external image)//"
    else write st ("[[image:" ++ src ++ "]]")
  else if src ≠ "" then write st ("[[image:" ++ src ++ "]]")
  else st

/-- `_handle_table_cell` (converter.py lines 566-574). -/
def handleTableCell (st : ConvState) (e : Elem) (is_header : Bool) : ConvState :=
  let text := String.mk (getElementText e)
  if is_header then { st with current_row := st.current_row ++ ["=" ++ text] }
  else { st with current_row := st.current_row ++ [text] }

/-- The per-level marker appending of `_handle_list_item` (converter.py
lines 358-364): `1.` for an ordered level, `*` otherwise, concatenated
in stack order. -/
def itemMarkers : List String → List Char
  | [] => []
  | t :: rest => (if t = "1." then "1.".data else "*".data) ++ itemMarkers rest

/-- The span style inspection of `_handle_span` (converter.py lines
275-293): the inline delimiters to open (and close in reverse). -/
def spanDelims (style : String) : String × String :=
  let s := style.data
  let p := ""
  let q := ""
  let bold := containsSub "font-weight".data s ∧
    (containsSub "bold".data s ∨ containsSub "700".data s ∨
     containsSub "800".data s ∨ containsSub "900".data s)
  let p := if bold then p ++ "**" else p
  let q := if bold then "**" ++ q else q
  let ital := containsSub "font-style".data s ∧ containsSub "italic".data s
  let p := if ital then p ++ "//" else p
  let q := if ital then "//" ++ q else q
  let deco := containsSub "text-decoration".data s
  let und := deco ∧ containsSub "underline".data s
  let p := if und then p ++ "__" else p
  let q := if und then "__" ++ q else q
  let thru := deco ∧ containsSub "line-through".data s
  let p := if thru then p ++ "--" else p
  let q := if thru then "--" ++ q else q
  (p, q)

/-! ### The element walker

`_process_element` and the recursive handlers (converter.py lines
159-398 and 531-564), as one mutual definition over an explicit
recursion bound.  Every recursive call decreases the bound by one, so
the definitions are structural and compute by kernel reduction;
`convert` instantiates the bound generously from the tree size, and
the bound-zero fallbacks are never reached there.  The list-prefix
properties verified below only concern output written before any
recursive call, so their statements hold for every positive bound. -/

mutual

/-- `_process_element` (converter.py lines 159-237). -/
def processElement (ctx : ConvCtx) : Nat → ConvState → Elem → ConvState
  | 0, st, _ => st
  | fuel + 1, st, e =>
    let tag := getTagName e
    if tag = "b" ∨ tag = "strong" then handleInlineFormat ctx fuel st e "**" "**"
    else if tag = "i" ∨ tag = "em" then handleInlineFormat ctx fuel st e "//" "//"
    else if tag = "u" then handleInlineFormat ctx fuel st e "__" "__"
    else if tag = "s" ∨ tag = "strike" ∨ tag = "del" then
      handleInlineFormat ctx fuel st e "--" "--"
    else if tag = "a" then handleLink st e
    else if tag = "en-media" then writeTail (handleMedia ctx st e) e
    else if tag = "img" then writeTail (handleImage ctx st e) e
    else if tag = "br" then writeTail (write st "\n") e
    else if tag = "en-todo" then writeTail (handleTodo st e) e
    else
      let st2 :=
        if tag = "h1" then handleHeading st e 1
        else if tag = "h2" then handleHeading st e 2
        else if tag = "h3" then handleHeading st e 3
        else if tag = "h4" then handleHeading st e 4
        else if tag = "h5" then handleHeading st e 5
        else if tag = "h6" then handleHeading st e 6
        else if tag = "ul" then handleList ctx fuel st e false
        else if tag = "ol" then handleList ctx fuel st e true
        else if tag = "li" then handleListItem ctx fuel st e
        else if tag = "hr" then write st "\n----\n"
        else if tag = "p" ∨ tag = "div" then handleBlock ctx fuel st e
        else if tag = "table" then handleTable ctx fuel st e
        else if tag = "tr" then handleTableRow ctx fuel st e
        else if tag = "td" ∨ tag = "th" then handleTableCell st e (tag = "th")
        else if tag = "blockquote" then handleBlockquote st e
        else if tag = "code" ∨ tag = "pre" then handleCode st e
        else if tag = "en-crypt" then handleEncrypted st
        else if tag = "span" then handleSpan ctx fuel st e
        else
          let st3 := writeTextOpt st e.text
          processChildren ctx fuel st3 e.children
      writeTail st2 e

/-- `for child in element: self._process_element(child)`. -/
def processChildren (ctx : ConvCtx) : Nat → ConvState → List Elem → ConvState
  | 0, st, _ => st
  | _ + 1, st, [] => st
  | fuel + 1, st, c :: cs =>
    processChildren ctx fuel (processElement ctx fuel st c) cs

/-- `_handle_inline_format` (converter.py lines 255-271). -/
def handleInlineFormat (ctx : ConvCtx) :
    Nat → ConvState → Elem → String → String → ConvState
  | 0, st, _, _, _ => st
  | fuel + 1, st, e, pre, suf =>
    let st := write st pre
    let st := writeTextOpt st e.text
    let st := processChildren ctx fuel st e.children
    let st := write st suf
    writeTail st e

/-- `_handle_span` (converter.py lines 273-308). -/
def handleSpan (ctx : ConvCtx) : Nat → ConvState → Elem → ConvState
  | 0, st, _ => st
  | fuel + 1, st, e =>
    let pq := spanDelims (attrGet e "style" "")
    let st := if pq.1 ≠ "" then write st pq.1 else st
    let st := writeTextOpt st e.text
    let st := processChildren ctx fuel st e.children
    let st := if pq.2 ≠ "" then write st pq.2 else st
    writeTail st e

/-- `_handle_list` (converter.py lines 341-352): push the list-type
marker, recurse into the children, pop, and close the block when the
stack empties. -/
def handleList (ctx : ConvCtx) : Nat → ConvState → Elem → Bool → ConvState
  | 0, st, _, _ => st
  | fuel + 1, st, e, ordered =>
    let list_type := if ordered then "1." else "*"
    let st := { st with list_stack := st.list_stack ++ [list_type] }
    let st := write st "\n"
    let st := processChildren ctx fuel st e.children
    let st := { st with list_stack := st.list_stack.dropLast }
    if st.list_stack = [] then write st "\n" else st

/-- `_handle_list_item` (converter.py lines 354-380): emit one marker
per active stack level, a space, the item text, children (nested lists
get a preceding newline), and a closing newline. -/
def handleListItem (ctx : ConvCtx) : Nat → ConvState → Elem → ConvState
  | 0, st, _ => st
  | fuel + 1, st, e =>
    let st :=
      if st.list_stack = [] then st
      else write (writeL st (itemMarkers st.list_stack)) " "
    let st := writeTextOpt st e.text
    let st := handleListItemChildren ctx fuel st e.children
    write st "\n"

/-- The child loop of `_handle_list_item` (converter.py lines
371-378). -/
def handleListItemChildren (ctx : ConvCtx) : Nat → ConvState → List Elem → ConvState
  | 0, st, _ => st
  | _ + 1, st, [] => st
  | fuel + 1, st, c :: cs =>
    let tag := getTagName c
    let st := if tag = "ul" ∨ tag = "ol" then write st "\n" else st
    handleListItemChildren ctx fuel (processElement ctx fuel st c) cs

/-- `_handle_block` (converter.py lines 382-398). -/
def handleBlock (ctx : ConvCtx) : Nat → ConvState → Elem → ConvState
  | 0, st, _ => st
  | fuel + 1, st, e =>
    let st :=
      if st.out ≠ [] ∧ st.out.getLast? ≠ some '\n' then write st "\n" else st
    let st := writeTextOpt st e.text
    let st := processChildren ctx fuel st e.children
    write st "\n"

/-- `_handle_table` (converter.py lines 531-553). -/
def handleTable (ctx : ConvCtx) : Nat → ConvState → Elem → ConvState
  | 0, st, _ => st
  | fuel + 1, st, e =>
    let st := { st with in_table := true, table_rows := [] }
    let st := handleTableChildren ctx fuel st e.children
    let st := write st "\n"
    let st := st.table_rows.foldl
      (fun st row => write st ("|" ++ String.intercalate "|" row ++ "\n")) st
    let st := write st "\n"
    { st with in_table := false, table_rows := [] }

/-- The child loop of `_handle_table` (converter.py lines 537-542):
descend transparently through `thead` / `tbody` / `tfoot`. -/
def handleTableChildren (ctx : ConvCtx) : Nat → ConvState → List Elem → ConvState
  | 0, st, _ => st
  | _ + 1, st, [] => st
  | fuel + 1, st, c :: cs =>
    let lower := pyLowerS c.tag
    let st :=
      if lower = "thead" ∨ lower = "tbody" ∨ lower = "tfoot" then
        processChildren ctx fuel st c.children
      else processElement ctx fuel st c
    handleTableChildren ctx fuel st cs

/-- `_handle_table_row` (converter.py lines 555-564). -/
def handleTableRow (ctx : ConvCtx) : Nat → ConvState → Elem → ConvState
  | 0, st, _ => st
  | fuel + 1, st, e =>
    let st := { st with current_row := [] }
    let st := processChildren ctx fuel st e.children
    let st :=
      if st.current_row ≠ [] then
        { st with table_rows := st.table_rows ++ [st.current_row] }
      else st
    { st with current_row := [] }

end

/-- Number of nodes of an element tree. -/
def elemSize : Elem → Nat
  | .mk _ _ _ ch _ => 1 + elemSizeList ch
  where elemSizeList : List Elem → Nat
    | [] => 0
    | c :: cs => elemSize c + elemSizeList cs

/-- Recursion bound ample for a full walk of `e`: the walker passes
through at most three bound-consuming layers per tree node. -/
def elemFuel (e : Elem) : Nat := 3 * elemSize e + 3

/-- The converter's initial state: empty buffers, and the bundled
attachment filenames (lowercased) registered as used
(converter.py lines 79-94). -/
def initConvState (note : Note) : ConvState :=
  { used_filenames :=
      note.attachments.foldl (fun u a => setAdd (pyLowerS a.filename) u) [] }

/-- The converter's context for a note (converter.py lines 77-94). -/
def convCtxOf (note : Note) (download_external_images : Bool)
    (decodeDataUri downloadImage : String → Option Attachment) : ConvCtx :=
  { amap := attachment_hash_map note.attachments,
    download_external_images := download_external_images,
    decodeDataUri := decodeDataUri,
    downloadImage := downloadImage }

/-- `ENMLToXWikiConverter.convert` (converter.py lines 103-149).
`parse` stands for the lxml parsing chain (XML parser with recovery,
HTML parser fallback): it is applied to the preprocessed content and
returns `none` exactly when parsing raises `etree.XMLSyntaxError`, the
one exception the surrounding `try` catches.  On parse failure the
plain-text fallback `_strip_html` is returned; on success the walker
output is newline-collapsed and stripped. -/
def convert (parse : String → Option Elem) (ctx : ConvCtx) (note : Note) : String :=
  if note.content = "" then ""
  else
    let c := preprocessContent note.content
    match parse c with
    | none => strip_html c
    | some root =>
      let en := findEnNote root
      let fin := processElement ctx (elemFuel en) (initConvState note) en
      String.mk (pyStripL (collapseNewlines fin.out))

/-! ### The full lxml node space

A parsed lxml tree is not made of elements alone: comment nodes
(`<!--...-->`) and processing instructions survive parsing — neither
`etree.XMLParser(recover=True, huge_tree=True)` nor `etree.HTMLParser()`
removes them — and they are yielded when iterating an element's
children.  Their `.tag` is a *callable* (`etree.Comment` /
`etree.ProcessingInstruction`), not a string, so everything the walker
does with a tag becomes partial:

* `_get_tag_name` (converter.py lines 151-157) runs
  `element.tag if element.tag else ""` — a callable is truthy — and
  then `tag.startswith("{")`, which raises `AttributeError` on a
  callable;
* `_handle_code` and the `_handle_table` child loop call
  `element.tag.lower()` directly, which raises the same way.

`convert`'s `try` catches only `etree.XMLSyntaxError` (line 139), so
these exceptions escape `convert`.  `LNode` and the `Except`-monadic
walker below embed this faithfully; on element-only trees the walk
agrees with the total `Elem` walker above (checked on a concrete tree
after `convertN`). -/

/-- An lxml node tag: a string for elements, a callable for comment
and processing-instruction nodes. -/
inductive LTag where
  | elemTag (s : String)
  | commentTag
  | piTag

/-- A node of a parsed lxml tree.  A comment node's `text` is the
comment body (lxml exposes it that way, and `_get_element_text`
flattens it like any text). -/
inductive LNode where
  | mk (tag : LTag) (attrs : List (String × String)) (text : Option String)
      (children : List LNode) (tail : Option String)

/-- The node's tag. -/
def LNode.tag : LNode → LTag
  | .mk t _ _ _ _ => t

/-- The node's attributes. -/
def LNode.attrs : LNode → List (String × String)
  | .mk _ a _ _ _ => a

/-- The node's leading text. -/
def LNode.text : LNode → Option String
  | .mk _ _ x _ _ => x

/-- The node's children. -/
def LNode.children : LNode → List LNode
  | .mk _ _ _ ch _ => ch

/-- The node's tail text. -/
def LNode.tail : LNode → Option String
  | .mk _ _ _ _ tl => tl

/-- `_get_tag_name` on a real node (converter.py lines 151-157): for
an element, strip the namespace and lowercase; for a comment or
processing instruction, `element.tag` is a truthy callable and
`tag.startswith("{")` raises `AttributeError`. -/
def getTagNameN (n : LNode) : Except PyErr String :=
  match n.tag with
  | .elemTag s => .ok (pyLowerS (stripNs s))
  | .commentTag => .error .attributeError
  | .piTag => .error .attributeError

/-- `element.tag.lower()` on a real node (used directly by
`_handle_code` and the `_handle_table` child loop): raises
`AttributeError` on a callable tag. -/
def rawTagLowerN (n : LNode) : Except PyErr String :=
  match n.tag with
  | .elemTag s => .ok (pyLowerS s)
  | .commentTag => .error .attributeError
  | .piTag => .error .attributeError

/-- Python `element.get(key, default)` on the attribute dict. -/
def attrGetN (n : LNode) (key dflt : String) : String :=
  (dictGet key n.attrs).getD dflt

/-- `_get_element_text` over real nodes (converter.py lines 614-625):
touches only `text`, `children` and `tail`, never the tag, so it is
total even on comment nodes (whose body it flattens like text). -/
def getElementTextN : LNode → List Char
  | .mk _ _ text children _ =>
    (match text with | some t => unescapeL t.data | none => []) ++
    getElementTextListN children
  where getElementTextListN : List LNode → List Char
    | [] => []
    | (LNode.mk t a x ch tl) :: cs =>
      getElementTextN (LNode.mk t a x ch tl) ++
      (match tl with | some s => unescapeL s.data | none => []) ++
      getElementTextListN cs

/-- The tail-writing step on a real node. -/
def writeTailN (st : ConvState) (n : LNode) : ConvState := writeTextOpt st n.tail

/-- `_handle_link` over real nodes (converter.py lines 322-339). -/
def handleLinkN (st : ConvState) (n : LNode) : ConvState :=
  let href := attrGetN n "href" ""
  let text := getElementTextN n
  let st :=
    if href ≠ "" then
      if text ≠ [] ∧ text ≠ href.data then
        write st ("[[" ++ String.mk text ++ ">>" ++ href ++ "]]")
      else
        write st ("[[" ++ href ++ "]]")
    else writeTextChars st text
  writeTailN st n

/-- `_handle_todo` over real nodes (converter.py lines 599-606). -/
def handleTodoN (st : ConvState) (n : LNode) : ConvState :=
  if attrGetN n "checked" "false" = "true" then write st "[x] "
  else write st "[ ] "

/-- `_handle_heading` over real nodes (converter.py lines 310-320). -/
def handleHeadingN (st : ConvState) (n : LNode) (level : Nat) : ConvState :=
  let equals := String.mk (List.replicate level '=')
  let st := write st ("\n" ++ equals ++ " ")
  let st := writeL st (getElementTextN n)
  write st (" " ++ equals ++ "\n")

/-- `_handle_blockquote` over real nodes (converter.py lines 576-584). -/
def handleBlockquoteN (st : ConvState) (n : LNode) : ConvState :=
  let lines := splitOnNl (getElementTextN n)
  let st := write st "\n"
  let st := lines.foldl (fun st line => write st ("> " ++ String.mk line ++ "\n")) st
  write st "\n"

/-- `_handle_code` over real nodes (converter.py lines 586-597): the
block/inline decision reads `element.tag.lower()`, which raises on a
callable tag. -/
def handleCodeN (st : ConvState) (n : LNode) : Except PyErr ConvState := do
  let text := (n.text).getD ""
  let lower ← rawTagLowerN n
  if lower = "pre" ∨ '\n' ∈ text.data then
    pure (write (write (write st "\n\x7b\x7bcode\x7d\x7d\n") text) "\n\x7b\x7b/code\x7d\x7d\n")
  else
    pure (write st ("###" ++ text ++ "###"))

/-- The media-hash extraction of `_handle_media` over real nodes
(converter.py lines 402-421). -/
def mediaHashOfN (n : LNode) : String :=
  let h := attrGetN n "hash" ""
  let h := if h ≠ "" then h else attrGetN n "Hash" ""
  let h := if h ≠ "" then h else attrGetN n "HASH" ""
  if h ≠ "" then h
  else
    match n.attrs.find? (fun p => pyLowerS p.1 = "hash") with
    | some p => p.2
    | none => ""

/-- `_handle_media` over real nodes (converter.py lines 400-440). -/
def handleMediaN (ctx : ConvCtx) (st : ConvState) (n : LNode) : ConvState :=
  let media_hash := mediaHashOfN n
  if media_hash = "" then st
  else
    match find_attachment_by_hash ctx.amap media_hash with
    | some att =>
      if isImage att then write st ("[[image:" ++ att.filename ++ "]]")
      else write st ("[[" ++ att.filename ++ ">>attach:" ++ att.filename ++ "]]")
    | none =>
      let short_hash :=
        if 8 < media_hash.data.length then String.mk (media_hash.data.take 8)
        else media_hash
      write st ("[Missing attachment: " ++ short_hash ++ "...]")

/-- `_handle_image` over real nodes (converter.py lines 442-480). -/
def handleImageN (ctx : ConvCtx) (st : ConvState) (n : LNode) : ConvState :=
  let src := attrGetN n "src" ""
  let alt := attrGetN n "alt" ""
  if startsWithS src "data:" then
    match ctx.decodeDataUri src with
    | some att =>
      let st := { st with downloaded_images := st.downloaded_images ++ [att] }
      write st ("[[image:" ++ att.filename ++ "]]")
    | none =>
      write st ("[Image: " ++ (if alt ≠ "" then alt else "embedded data") ++ "]")
  else if startsWithS src "http://" ∨ startsWithS src "https://" then
    if ctx.download_external_images then
      match ctx.downloadImage src with
      | some att =>
        let filename := get_unique_filename st.used_filenames att.filename
        let att2 : Attachment :=
          { filename := filename, mime_type := att.mime_type,
            data := att.data, hash := att.hash }
        let st := { st with downloaded_images := st.downloaded_images ++ [att2],
                            used_filenames := setAdd (pyLowerS filename) st.used_filenames }
        write st ("[[image:" ++ filename ++ "]]")
      | none =>
        write (write st ("[[image:" ++ src ++ "]]")) " //(external image)//"
    else write st ("[[image:" ++ src ++ "]]")
  else if src ≠ "" then write st ("[[image:" ++ src ++ "]]")
  else st

/-- `_handle_table_cell` over real nodes (converter.py lines 566-574). -/
def handleTableCellN (st : ConvState) (n : LNode) (is_header : Bool) : ConvState :=
  let text := String.mk (getElementTextN n)
  if is_header then { st with current_row := st.current_row ++ ["=" ++ text] }
  else { st with current_row := st.current_row ++ [text] }

/-! The walker over real nodes, in the `Except PyErr` monad: the same
dispatch as `processElement`, with every tag access fallible.  The
exception propagates out of every loop, as an uncaught Python
exception does. -/

mutual

/-- `_process_element` over real nodes (converter.py lines 159-237);
the first step is `_get_tag_name`, which raises `AttributeError` on a
comment or processing-instruction node. -/
def processNode (ctx : ConvCtx) : Nat → ConvState → LNode → Except PyErr ConvState
  | 0, st, _ => .ok st
  | fuel + 1, st, n => do
    let tag ← getTagNameN n
    if tag = "b" ∨ tag = "strong" then handleInlineFormatN ctx fuel st n "**" "**"
    else if tag = "i" ∨ tag = "em" then handleInlineFormatN ctx fuel st n "//" "//"
    else if tag = "u" then handleInlineFormatN ctx fuel st n "__" "__"
    else if tag = "s" ∨ tag = "strike" ∨ tag = "del" then
      handleInlineFormatN ctx fuel st n "--" "--"
    else if tag = "a" then pure (handleLinkN st n)
    else if tag = "en-media" then pure (writeTailN (handleMediaN ctx st n) n)
    else if tag = "img" then pure (writeTailN (handleImageN ctx st n) n)
    else if tag = "br" then pure (writeTailN (write st "\n") n)
    else if tag = "en-todo" then pure (writeTailN (handleTodoN st n) n)
    else do
      let st2 ←
        if tag = "h1" then pure (handleHeadingN st n 1)
        else if tag = "h2" then pure (handleHeadingN st n 2)
        else if tag = "h3" then pure (handleHeadingN st n 3)
        else if tag = "h4" then pure (handleHeadingN st n 4)
        else if tag = "h5" then pure (handleHeadingN st n 5)
        else if tag = "h6" then pure (handleHeadingN st n 6)
        else if tag = "ul" then handleListN ctx fuel st n false
        else if tag = "ol" then handleListN ctx fuel st n true
        else if tag = "li" then handleListItemN ctx fuel st n
        else if tag = "hr" then pure (write st "\n----\n")
        else if tag = "p" ∨ tag = "div" then handleBlockN ctx fuel st n
        else if tag = "table" then handleTableN ctx fuel st n
        else if tag = "tr" then handleTableRowN ctx fuel st n
        else if tag = "td" ∨ tag = "th" then pure (handleTableCellN st n (tag = "th"))
        else if tag = "blockquote" then pure (handleBlockquoteN st n)
        else if tag = "code" ∨ tag = "pre" then handleCodeN st n
        else if tag = "en-crypt" then pure (handleEncrypted st)
        else if tag = "span" then handleSpanN ctx fuel st n
        else processNodeChildren ctx fuel (writeTextOpt st n.text) n.children
      pure (writeTailN st2 n)

/-- `for child in element: self._process_element(child)` over real
nodes. -/
def processNodeChildren (ctx : ConvCtx) : Nat → ConvState → List LNode → Except PyErr ConvState
  | 0, st, _ => .ok st
  | _ + 1, st, [] => .ok st
  | fuel + 1, st, c :: cs => do
    let st ← processNode ctx fuel st c
    processNodeChildren ctx fuel st cs

/-- `_handle_inline_format` over real nodes (converter.py lines
255-271). -/
def handleInlineFormatN (ctx : ConvCtx) :
    Nat → ConvState → LNode → String → String → Except PyErr ConvState
  | 0, st, _, _, _ => .ok st
  | fuel + 1, st, n, pre, suf => do
    let st := write st pre
    let st := writeTextOpt st n.text
    let st ← processNodeChildren ctx fuel st n.children
    let st := write st suf
    pure (writeTailN st n)

/-- `_handle_span` over real nodes (converter.py lines 273-308). -/
def handleSpanN (ctx : ConvCtx) : Nat → ConvState → LNode → Except PyErr ConvState
  | 0, st, _ => .ok st
  | fuel + 1, st, n => do
    let pq := spanDelims (attrGetN n "style" "")
    let st := if pq.1 ≠ "" then write st pq.1 else st
    let st := writeTextOpt st n.text
    let st ← processNodeChildren ctx fuel st n.children
    let st := if pq.2 ≠ "" then write st pq.2 else st
    pure (writeTailN st n)

/-- `_handle_list` over real nodes (converter.py lines 341-352). -/
def handleListN (ctx : ConvCtx) : Nat → ConvState → LNode → Bool → Except PyErr ConvState
  | 0, st, _, _ => .ok st
  | fuel + 1, st, n, ordered => do
    let list_type := if ordered then "1." else "*"
    let st := { st with list_stack := st.list_stack ++ [list_type] }
    let st := write st "\n"
    let st ← processNodeChildren ctx fuel st n.children
    let st := { st with list_stack := st.list_stack.dropLast }
    pure (if st.list_stack = [] then write st "\n" else st)

/-- `_handle_list_item` over real nodes (converter.py lines 354-380). -/
def handleListItemN (ctx : ConvCtx) : Nat → ConvState → LNode → Except PyErr ConvState
  | 0, st, _ => .ok st
  | fuel + 1, st, n => do
    let st :=
      if st.list_stack = [] then st
      else write (writeL st (itemMarkers st.list_stack)) " "
    let st := writeTextOpt st n.text
    let st ← handleListItemChildrenN ctx fuel st n.children
    pure (write st "\n")

/-- The child loop of `_handle_list_item` over real nodes (converter.py
lines 371-378); it calls `_get_tag_name` on each child, so a comment
child raises here too. -/
def handleListItemChildrenN (ctx : ConvCtx) :
    Nat → ConvState → List LNode → Except PyErr ConvState
  | 0, st, _ => .ok st
  | _ + 1, st, [] => .ok st
  | fuel + 1, st, c :: cs => do
    let tag ← getTagNameN c
    let st := if tag = "ul" ∨ tag = "ol" then write st "\n" else st
    let st ← processNode ctx fuel st c
    handleListItemChildrenN ctx fuel st cs

/-- `_handle_block` over real nodes (converter.py lines 382-398). -/
def handleBlockN (ctx : ConvCtx) : Nat → ConvState → LNode → Except PyErr ConvState
  | 0, st, _ => .ok st
  | fuel + 1, st, n => do
    let st :=
      if st.out ≠ [] ∧ st.out.getLast? ≠ some '\n' then write st "\n" else st
    let st := writeTextOpt st n.text
    let st ← processNodeChildren ctx fuel st n.children
    pure (write st "\n")

/-- `_handle_table` over real nodes (converter.py lines 531-553). -/
def handleTableN (ctx : ConvCtx) : Nat → ConvState → LNode → Except PyErr ConvState
  | 0, st, _ => .ok st
  | fuel + 1, st, n => do
    let st := { st with in_table := true, table_rows := [] }
    let st ← handleTableChildrenN ctx fuel st n.children
    let st := write st "\n"
    let st := st.table_rows.foldl
      (fun st row => write st ("|" ++ String.intercalate "|" row ++ "\n")) st
    let st := write st "\n"
    pure { st with in_table := false, table_rows := [] }

/-- The child loop of `_handle_table` over real nodes (converter.py
lines 537-542); it reads `child.tag.lower()`, so a comment child
raises `AttributeError` here. -/
def handleTableChildrenN (ctx : ConvCtx) :
    Nat → ConvState → List LNode → Except PyErr ConvState
  | 0, st, _ => .ok st
  | _ + 1, st, [] => .ok st
  | fuel + 1, st, c :: cs => do
    let lower ← rawTagLowerN c
    let st ←
      if lower = "thead" ∨ lower = "tbody" ∨ lower = "tfoot" then
        processNodeChildren ctx fuel st c.children
      else processNode ctx fuel st c
    handleTableChildrenN ctx fuel st cs

/-- `_handle_table_row` over real nodes (converter.py lines 555-564). -/
def handleTableRowN (ctx : ConvCtx) : Nat → ConvState → LNode → Except PyErr ConvState
  | 0, st, _ => .ok st
  | fuel + 1, st, n => do
    let st := { st with current_row := [] }
    let st ← processNodeChildren ctx fuel st n.children
    let st :=
      if st.current_row ≠ [] then
        { st with table_rows := st.table_rows ++ [st.current_row] }
      else st
    pure { st with current_row := [] }

end

/-- Number of nodes of a real tree. -/
def nodeSize : LNode → Nat
  | .mk _ _ _ ch _ => 1 + nodeSizeList ch
  where nodeSizeList : List LNode → Nat
    | [] => 0
    | c :: cs => nodeSize c + nodeSizeList cs

/-- Recursion bound ample for a full walk of a real tree. -/
def nodeFuel (n : LNode) : Nat := 3 * nodeSize n + 3

/-- Whether a tag is an element tag with the given local name. -/
def tagHasLocalName (name : String) : LTag → Bool
  | .elemTag s => stripNs s = name
  | _ => false

/-- Whether a tag is an element tag equal to the given qualified
name. -/
def tagHasExactName (name : String) : LTag → Bool
  | .elemTag s => s = name
  | _ => false

mutual

/-- `root.find(".//{*}en-note")` over real nodes: first match in
document order among the given nodes and their descendants; a tag-name
path never matches a comment or processing instruction. -/
def findDescLocalN (name : String) : List LNode → Option LNode
  | [] => none
  | c :: cs =>
    match findNodeLocalN name c with
    | some r => some r
    | none => findDescLocalN name cs

/-- Search one node and its descendants for a local tag name. -/
def findNodeLocalN (name : String) : LNode → Option LNode
  | LNode.mk t a x ch tl =>
    if tagHasLocalName name t then some (LNode.mk t a x ch tl)
    else findDescLocalN name ch

end

mutual

/-- `root.find(".//tag")` over real nodes, exact qualified match. -/
def findDescExactN (name : String) : List LNode → Option LNode
  | [] => none
  | c :: cs =>
    match findNodeExactN name c with
    | some r => some r
    | none => findDescExactN name cs

/-- Search one node and its descendants for an exact qualified tag. -/
def findNodeExactN (name : String) : LNode → Option LNode
  | LNode.mk t a x ch tl =>
    if tagHasExactName name t then some (LNode.mk t a x ch tl)
    else findDescExactN name ch

end

/-- The root-selection chain of `convert` over real nodes
(converter.py lines 129-135). -/
def findEnNoteN (root : LNode) : LNode :=
  match findDescLocalN "en-note" root.children with
  | some n => n
  | none =>
    match findDescExactN "en-note" root.children with
    | some n => n
    | none =>
      match findDescExactN "body" root.children with
      | some n => n
      | none => root

/-- `ENMLToXWikiConverter.convert` (converter.py lines 103-149) over
the full lxml node space: `.ok` is a returned string, `.error e` an
exception escaping `convert` — its `try` catches only the parse-level
`etree.XMLSyntaxError` (modeled by `parse` returning `none`, which
yields the `_strip_html` fallback), not the exceptions the walk itself
raises. -/
def convertN (parse : String → Option LNode) (ctx : ConvCtx) (note : Note) :
    Except PyErr String :=
  if note.content = "" then .ok ""
  else
    let c := preprocessContent note.content
    match parse c with
    | none => .ok (strip_html c)
    | some root =>
      let en := findEnNoteN root
      match processNode ctx (nodeFuel en) (initConvState note) en with
      | .ok fin => .ok (String.mk (pyStripL (collapseNewlines fin.out)))
      | .error e => .error e

/-! ### Output monotonicity of the walker

Every handler only appends to the output buffer.  This is the
scaffolding for the list-prefix theorem: whatever a list item's
children contain, the characters already written — in particular the
item's marker prefix — stay in place. -/

lemma write_prefixes (st : ConvState) (s : String) :
    st.out <+: (write st s).out := ⟨s.data, rfl⟩

lemma writeL_prefixes (st : ConvState) (l : List Char) :
    st.out <+: (writeL st l).out := ⟨l, rfl⟩

lemma writeTextChars_prefixes (st : ConvState) (l : List Char) :
    st.out <+: (writeTextChars st l).out := ⟨unescapeL l, rfl⟩

lemma writeTextOpt_prefixes (st : ConvState) (t : Option String) :
    st.out <+: (writeTextOpt st t).out := by
  cases t with
  | none => exact List.prefix_rfl
  | some s => exact writeTextChars_prefixes st s.data

lemma writeTail_prefixes (st : ConvState) (e : Elem) :
    st.out <+: (writeTail st e).out :=
  writeTextOpt_prefixes st e.tail

lemma foldl_write_prefixes {β : Type} (g : ConvState → β → ConvState)
    (hg : ∀ st b, st.out <+: (g st b).out) :
    ∀ (l : List β) (st : ConvState), st.out <+: (l.foldl g st).out := by
  intro l
  induction l with
  | nil => intro st; exact List.prefix_rfl
  | cons b bs ih => intro st; exact (hg st b).trans (ih (g st b))

lemma handleLink_prefixes (st : ConvState) (e : Elem) :
    st.out <+: (handleLink st e).out := by
  unfold handleLink
  refine List.IsPrefix.trans ?_ (writeTail_prefixes _ _)
  split_ifs
  · exact write_prefixes _ _
  · exact write_prefixes _ _
  · exact writeTextChars_prefixes _ _

lemma handleTodo_prefixes (st : ConvState) (e : Elem) :
    st.out <+: (handleTodo st e).out := by
  unfold handleTodo
  split_ifs <;> exact write_prefixes _ _

lemma handleHeading_prefixes (st : ConvState) (e : Elem) (level : Nat) :
    st.out <+: (handleHeading st e level).out := by
  unfold handleHeading
  exact ((write_prefixes _ _).trans (writeL_prefixes _ _)).trans (write_prefixes _ _)

lemma handleBlockquote_prefixes (st : ConvState) (e : Elem) :
    st.out <+: (handleBlockquote st e).out := by
  unfold handleBlockquote
  exact ((write_prefixes _ _).trans
    (foldl_write_prefixes _ (fun st b => write_prefixes _ _) _ _)).trans
    (write_prefixes _ _)

lemma handleCode_prefixes (st : ConvState) (e : Elem) :
    st.out <+: (handleCode st e).out := by
  simp only [handleCode]
  split_ifs
  · exact ((write_prefixes _ _).trans (write_prefixes _ _)).trans (write_prefixes _ _)
  · exact write_prefixes _ _

lemma handleEncrypted_prefixes (st : ConvState) :
    st.out <+: (handleEncrypted st).out := write_prefixes _ _

lemma handleMedia_prefixes (ctx : ConvCtx) (st : ConvState) (e : Elem) :
    st.out <+: (handleMedia ctx st e).out := by
  simp only [handleMedia]
  split
  · exact List.prefix_rfl
  · split
    · split
      · exact write_prefixes _ _
      · exact write_prefixes _ _
    · exact write_prefixes _ _

lemma handleImage_prefixes (ctx : ConvCtx) (st : ConvState) (e : Elem) :
    st.out <+: (handleImage ctx st e).out := by
  simp only [handleImage]
  split
  · split
    · exact ⟨_, rfl⟩
    · exact write_prefixes _ _
  · split
    · split
      · split
        · exact ⟨_, rfl⟩
        · exact (write_prefixes _ _).trans (write_prefixes _ _)
      · exact write_prefixes _ _
    · split
      · exact write_prefixes _ _
      · exact List.prefix_rfl

lemma handleTableCell_prefixes (st : ConvState) (e : Elem) (b : Bool) :
    st.out <+: (handleTableCell st e b).out := by
  simp only [handleTableCell]
  split_ifs <;> exact List.prefix_rfl

lemma ite_write_prefixes (c : Prop) [Decidable c] (st : ConvState) (x : String) :
    st.out <+: (if c then write st x else st).out := by
  split_ifs
  · exact write_prefixes _ _
  · exact List.prefix_rfl

-- Every walker function only appends to the output buffer, at every
-- recursion bound.
set_option maxHeartbeats 4000000 in
lemma walker_out_prefixes (ctx : ConvCtx) : ∀ fuel : Nat,
    (∀ st e, st.out <+: (processElement ctx fuel st e).out) ∧
    (∀ st es, st.out <+: (processChildren ctx fuel st es).out) ∧
    (∀ st e pre suf, st.out <+: (handleInlineFormat ctx fuel st e pre suf).out) ∧
    (∀ st e, st.out <+: (handleSpan ctx fuel st e).out) ∧
    (∀ st e b, st.out <+: (handleList ctx fuel st e b).out) ∧
    (∀ st e, st.out <+: (handleListItem ctx fuel st e).out) ∧
    (∀ st es, st.out <+: (handleListItemChildren ctx fuel st es).out) ∧
    (∀ st e, st.out <+: (handleBlock ctx fuel st e).out) ∧
    (∀ st e, st.out <+: (handleTable ctx fuel st e).out) ∧
    (∀ st es, st.out <+: (handleTableChildren ctx fuel st es).out) ∧
    (∀ st e, st.out <+: (handleTableRow ctx fuel st e).out) := by
  intro fuel
  induction fuel with
  | zero =>
    exact ⟨fun _ _ => List.prefix_rfl, fun _ _ => List.prefix_rfl,
      fun _ _ _ _ => List.prefix_rfl, fun _ _ => List.prefix_rfl,
      fun _ _ _ => List.prefix_rfl, fun _ _ => List.prefix_rfl,
      fun _ _ => List.prefix_rfl, fun _ _ => List.prefix_rfl,
      fun _ _ => List.prefix_rfl, fun _ _ => List.prefix_rfl,
      fun _ _ => List.prefix_rfl⟩
  | succ fuel ih =>
    obtain ⟨ihPE, ihPC, ihIF, ihSpan, ihList, ihItem, ihItemCh,
      ihBlock, ihTable, ihTableCh, ihRow⟩ := ih
    refine ⟨?_, ?_, ?_, ?_, ?_, ?_, ?_, ?_, ?_, ?_, ?_⟩
    · intro st e
      simp only [processElement]
      by_cases h1 : getTagName e = "b" ∨ getTagName e = "strong"
      · rw [if_pos h1]; exact ihIF st e "**" "**"
      rw [if_neg h1]
      by_cases h2 : getTagName e = "i" ∨ getTagName e = "em"
      · rw [if_pos h2]; exact ihIF st e "//" "//"
      rw [if_neg h2]
      by_cases h3 : getTagName e = "u"
      · rw [if_pos h3]; exact ihIF st e "__" "__"
      rw [if_neg h3]
      by_cases h4 : getTagName e = "s" ∨ getTagName e = "strike" ∨ getTagName e = "del"
      · rw [if_pos h4]; exact ihIF st e "--" "--"
      rw [if_neg h4]
      by_cases h5 : getTagName e = "a"
      · rw [if_pos h5]; exact handleLink_prefixes st e
      rw [if_neg h5]
      by_cases h6 : getTagName e = "en-media"
      · rw [if_pos h6]; exact (handleMedia_prefixes ctx st e).trans (writeTail_prefixes _ _)
      rw [if_neg h6]
      by_cases h7 : getTagName e = "img"
      · rw [if_pos h7]; exact (handleImage_prefixes ctx st e).trans (writeTail_prefixes _ _)
      rw [if_neg h7]
      by_cases h8 : getTagName e = "br"
      · rw [if_pos h8]; exact (write_prefixes _ _).trans (writeTail_prefixes _ _)
      rw [if_neg h8]
      by_cases h9 : getTagName e = "en-todo"
      · rw [if_pos h9]; exact (handleTodo_prefixes _ _).trans (writeTail_prefixes _ _)
      rw [if_neg h9]
      by_cases h10 : getTagName e = "h1"
      · rw [if_pos h10]; exact (handleHeading_prefixes _ _ _).trans (writeTail_prefixes _ _)
      rw [if_neg h10]
      by_cases h11 : getTagName e = "h2"
      · rw [if_pos h11]; exact (handleHeading_prefixes _ _ _).trans (writeTail_prefixes _ _)
      rw [if_neg h11]
      by_cases h12 : getTagName e = "h3"
      · rw [if_pos h12]; exact (handleHeading_prefixes _ _ _).trans (writeTail_prefixes _ _)
      rw [if_neg h12]
      by_cases h13 : getTagName e = "h4"
      · rw [if_pos h13]; exact (handleHeading_prefixes _ _ _).trans (writeTail_prefixes _ _)
      rw [if_neg h13]
      by_cases h14 : getTagName e = "h5"
      · rw [if_pos h14]; exact (handleHeading_prefixes _ _ _).trans (writeTail_prefixes _ _)
      rw [if_neg h14]
      by_cases h15 : getTagName e = "h6"
      · rw [if_pos h15]; exact (handleHeading_prefixes _ _ _).trans (writeTail_prefixes _ _)
      rw [if_neg h15]
      by_cases h16 : getTagName e = "ul"
      · rw [if_pos h16]; exact (ihList st e false).trans (writeTail_prefixes _ _)
      rw [if_neg h16]
      by_cases h17 : getTagName e = "ol"
      · rw [if_pos h17]; exact (ihList st e true).trans (writeTail_prefixes _ _)
      rw [if_neg h17]
      by_cases h18 : getTagName e = "li"
      · rw [if_pos h18]; exact (ihItem st e).trans (writeTail_prefixes _ _)
      rw [if_neg h18]
      by_cases h19 : getTagName e = "hr"
      · rw [if_pos h19]; exact (write_prefixes _ _).trans (writeTail_prefixes _ _)
      rw [if_neg h19]
      by_cases h20 : getTagName e = "p" ∨ getTagName e = "div"
      · rw [if_pos h20]; exact (ihBlock st e).trans (writeTail_prefixes _ _)
      rw [if_neg h20]
      by_cases h21 : getTagName e = "table"
      · rw [if_pos h21]; exact (ihTable st e).trans (writeTail_prefixes _ _)
      rw [if_neg h21]
      by_cases h22 : getTagName e = "tr"
      · rw [if_pos h22]; exact (ihRow st e).trans (writeTail_prefixes _ _)
      rw [if_neg h22]
      by_cases h23 : getTagName e = "td" ∨ getTagName e = "th"
      · rw [if_pos h23]; exact (handleTableCell_prefixes _ _ _).trans (writeTail_prefixes _ _)
      rw [if_neg h23]
      by_cases h24 : getTagName e = "blockquote"
      · rw [if_pos h24]; exact (handleBlockquote_prefixes _ _).trans (writeTail_prefixes _ _)
      rw [if_neg h24]
      by_cases h25 : getTagName e = "code" ∨ getTagName e = "pre"
      · rw [if_pos h25]; exact (handleCode_prefixes _ _).trans (writeTail_prefixes _ _)
      rw [if_neg h25]
      by_cases h26 : getTagName e = "en-crypt"
      · rw [if_pos h26]; exact (handleEncrypted_prefixes _).trans (writeTail_prefixes _ _)
      rw [if_neg h26]
      by_cases h27 : getTagName e = "span"
      · rw [if_pos h27]; exact (ihSpan st e).trans (writeTail_prefixes _ _)
      rw [if_neg h27]
      exact ((writeTextOpt_prefixes _ _).trans (ihPC _ _)).trans
        (writeTail_prefixes _ _)
    · intro st es
      cases es with
      | nil => exact List.prefix_rfl
      | cons c cs => exact (ihPE st c).trans (ihPC _ cs)
    · intro st e pre suf
      simp only [handleInlineFormat]
      refine List.IsPrefix.trans ?_ (writeTail_prefixes _ _)
      refine List.IsPrefix.trans ?_ (write_prefixes _ _)
      refine List.IsPrefix.trans ?_ (ihPC _ _)
      refine List.IsPrefix.trans ?_ (writeTextOpt_prefixes _ _)
      exact write_prefixes _ _
    · intro st e
      simp only [handleSpan]
      refine List.IsPrefix.trans ?_ (writeTail_prefixes _ _)
      refine List.IsPrefix.trans ?_ (ite_write_prefixes _ _ _)
      refine List.IsPrefix.trans ?_ (ihPC _ _)
      refine List.IsPrefix.trans ?_ (writeTextOpt_prefixes _ _)
      exact ite_write_prefixes _ _ _
    · intro st e b
      simp only [handleList]
      refine List.IsPrefix.trans ?_ (ite_write_prefixes _ _ _)
      refine List.IsPrefix.trans ?_ (ihPC _ _)
      exact write_prefixes _ _
    · intro st e
      simp only [handleListItem]
      by_cases h : st.list_stack = []
      · rw [if_pos h]
        refine List.IsPrefix.trans ?_ (write_prefixes _ _)
        refine List.IsPrefix.trans ?_ (ihItemCh _ _)
        exact writeTextOpt_prefixes _ _
      · rw [if_neg h]
        refine List.IsPrefix.trans ?_ (write_prefixes _ _)
        refine List.IsPrefix.trans ?_ (ihItemCh _ _)
        refine List.IsPrefix.trans ?_ (writeTextOpt_prefixes _ _)
        refine List.IsPrefix.trans ?_ (write_prefixes _ _)
        exact writeL_prefixes _ _
    · intro st es
      cases es with
      | nil => exact List.prefix_rfl
      | cons c cs =>
        simp only [handleListItemChildren]
        refine List.IsPrefix.trans ?_ (ihItemCh _ cs)
        refine List.IsPrefix.trans ?_ (ihPE _ c)
        exact ite_write_prefixes _ _ _
    · intro st e
      simp only [handleBlock]
      refine List.IsPrefix.trans ?_ (write_prefixes _ _)
      refine List.IsPrefix.trans ?_ (ihPC _ _)
      refine List.IsPrefix.trans ?_ (writeTextOpt_prefixes _ _)
      exact ite_write_prefixes _ _ _
    · intro st e
      simp only [handleTable]
      refine List.IsPrefix.trans ?_ (write_prefixes _ _)
      refine List.IsPrefix.trans ?_
        (foldl_write_prefixes _ (fun st b => write_prefixes _ _) _ _)
      refine List.IsPrefix.trans ?_ (write_prefixes _ _)
      exact ihTableCh { st with in_table := true, table_rows := [] } e.children
    · intro st es
      cases es with
      | nil => exact List.prefix_rfl
      | cons c cs =>
        simp only [handleTableChildren]
        split_ifs
        · exact (ihPC _ _).trans (ihTableCh _ cs)
        · exact (ihPE _ c).trans (ihTableCh _ cs)
    · intro st e
      simp only [handleTableRow]
      split_ifs <;> exact ihPC { st with current_row := [] } e.children

/-! ### Converter theorems -/

/-- Fixture: a converter context with no attachments and failing
fetch operations. -/
def ctxFix : ConvCtx :=
  { amap := [], download_external_images := true,
    decodeDataUri := fun _ => none, downloadImage := fun _ => none }

/-- Fixture: `<ol><li>a<ol><li>b</li></ol></li></ol>`, an ordered list
nested two levels deep. -/
def docOl : Elem :=
  .mk "ol" [] none
    [.mk "li" [] (some "a")
      [.mk "ol" [] none [.mk "li" [] (some "b") [] none] none] none] none

/-- Fixture: a bare list item with text. -/
def liStar : Elem := .mk "li" [] (some "x") [] none

/-- Fixture: a note with markup content containing an entity. -/
def noteAmp : Note := { title := "T", content := "<en-note><div>A &amp; B</div>" }

/-- Fixture: a note with empty content. -/
def noteEmpty : Note := { title := "T", content := "" }

/-- C8: for every note whose content string is empty, `convert`
returns the empty string (converter.py lines 105-108). -/
theorem convert_empty_content (parse : String → Option Elem) (ctx : ConvCtx)
    (note : Note) (h : note.content = "") :
    convert parse ctx note = "" := by
  simp [convert, h]

/-- Witness for C8 at a concrete empty-content note. -/
theorem convert_empty_content_witness :
    noteEmpty.content = "" ∧ convert (fun _ => none) ctxFix noteEmpty = "" :=
  ⟨rfl, convert_empty_content (fun _ => none) ctxFix noteEmpty rfl⟩

deriving instance DecidableEq for Except

/-- Fixture: a note whose content is well formed but holds a comment
inside the note body. -/
def noteComment : Note := { title := "T", content := "<en-note><!--c--></en-note>" }

/-- Fixture: the lxml parse of `noteComment`'s content — the `en-note`
root element with one comment child whose body is `c`. -/
def docCommentNode : LNode :=
  .mk (.elemTag "en-note") [] none [.mk .commentTag [] (some "c") [] none] none

/-- Fixture: `docOl` as a real node tree. -/
def docOlNode : LNode :=
  .mk (.elemTag "ol") [] none
    [.mk (.elemTag "li") [] (some "a")
      [.mk (.elemTag "ol") [] none
        [.mk (.elemTag "li") [] (some "b") [] none] none] none] none

-- On an element-only tree the node walker agrees with the element
-- walker: the Elem layer is the restriction of the LNode layer.
example :
    processNode ctxFix (nodeFuel docOlNode) {} docOlNode =
      .ok (processElement ctxFix (elemFuel docOl) {} docOl) := by decide

/-- C1: `convert` does *not* return a string for every content string.
A comment node in the parsed tree — e.g. the well-formed content
`<en-note><!--c--></en-note>` — makes `_get_tag_name` raise
`AttributeError` (`tag.startswith` on the callable comment tag,
converter.py line 155), which the `except etree.XMLSyntaxError` clause
at line 139 does not catch, so `convert` raises; the specification
says it never raises and degrades to a plain-text fallback instead.
The recovery paths that do exist are verified alongside: parse-level
failure degrades to the `_strip_html` plain-text fallback — all tags
stripped, HTML entities decoded — and empty content yields the empty
string. -/
theorem convert_raises_on_comment_node :
    convertN (fun _ => some docCommentNode) ctxFix noteComment =
      .error .attributeError ∧
    convertN (fun _ => none) ctxFix noteAmp =
      .ok (strip_html (preprocessContent noteAmp.content)) ∧
    convertN (fun _ => none) ctxFix noteAmp = .ok "A & B" ∧
    convertN (fun _ => none) ctxFix noteEmpty = .ok "" := by
  exact ⟨by decide, by decide, by decide, by decide⟩

/-- C2 counterexample: walking the two-level nested *ordered* list
`<ol><li>a<ol><li>b</li></ol></li></ol>` emits the innermost item line
as `1.1. b`: the prefix for the two active stack levels is the four
characters `1.1.`, not "exactly one marker character per active stack
level" (which would be two characters for two levels). -/
theorem nested_list_prefix_char_count_counterexample :
    (processElement ctxFix (elemFuel docOl) {} docOl).out =
      "\n1. a\n\n1.1. b\n\n\n".data ∧
    itemMarkers ["1.", "1."] = "1.1.".data ∧
    ("1.1.".data).length = 4 ∧
    ¬ (("1.1.".data).length = 2) := by
  exact ⟨by decide, by decide, by decide, by decide⟩

lemma itemMarkers_length (stk : List String) :
    (itemMarkers stk).length =
      (stk.map (fun t => if t = "1." then 2 else 1)).sum := by
  induction stk with
  | nil => simp [itemMarkers]
  | cons t rest ih =>
    by_cases h : t = "1." <;> simp [itemMarkers, h, ih] <;> omega

/-- C2 as amended: while the stack holds the markers of the active
list levels, a list item's emitted line starts with the current output
followed by exactly one list-type marker per active stack level, in
stack order, then one space; an ordered level contributes the
two-character marker `1.` and an unordered level the one-character
marker `*`, so for a nested unordered list two levels deep the
innermost prefix is exactly the 2 characters `**`. -/
theorem list_item_one_marker_per_level (ctx : ConvCtx) (fuel : Nat)
    (st : ConvState) (e : Elem) (h : ¬ st.list_stack = []) :
    ((st.out ++ itemMarkers st.list_stack) ++ [' ']) <+:
      (handleListItem ctx (fuel + 1) st e).out ∧
    (itemMarkers st.list_stack).length =
      (st.list_stack.map (fun t => if t = "1." then 2 else 1)).sum ∧
    itemMarkers ["*", "*"] = ['*', '*'] := by
  refine ⟨?_, itemMarkers_length _, by decide⟩
  simp only [handleListItem]
  rw [if_neg h]
  refine List.IsPrefix.trans ?_ (write_prefixes _ _)
  refine List.IsPrefix.trans ?_
    ((walker_out_prefixes ctx fuel).2.2.2.2.2.2.1 _ _)
  exact writeTextOpt_prefixes (write (writeL st (itemMarkers st.list_stack)) " ") e.text

/-- Witness for C2's amended statement at a two-level unordered
stack. -/
theorem list_item_one_marker_per_level_witness :
    (¬ (({ out := [], list_stack := ["*", "*"] } : ConvState).list_stack = [])) ∧
    ((((({ out := [], list_stack := ["*", "*"] } : ConvState).out ++
        itemMarkers ["*", "*"]) ++ [' ']) <+:
      (handleListItem ctxFix (5 + 1)
        { out := [], list_stack := ["*", "*"] } liStar).out) ∧
    (itemMarkers ["*", "*"]).length =
      ((["*", "*"] : List String).map (fun t => if t = "1." then 2 else 1)).sum ∧
    itemMarkers ["*", "*"] = ['*', '*']) :=
  ⟨by decide,
   list_item_one_marker_per_level ctxFix 5
     { out := [], list_stack := ["*", "*"] } liStar (by decide)⟩

end EvernoteExtractor
